import Mathlib

/-!
# glc audio capture and playback

A shallow embedding of `src/glc/play/audio_play.c` and
`src/glc/capture/audio_capture.c`, followed by the properties established
about them.

Conventions of the embedding.

* Unsigned 64-bit quantities (`glc_utime_t`, `glc_size_t`, `size_t`,
  `snd_pcm_uframes_t` on an LP64 target) are natural numbers; every
  arithmetic operation the source performs on them is reduced modulo `2^64`.
* `int`, `long` and `ssize_t` values (return codes, frame counts returned by
  the device) are integers; a signed value stored into an unsigned variable is
  reduced modulo `2^64`.
* Calls that leave the two files (ALSA, packetstream, the logger, `usleep`)
  are recorded, in call order, in a trace of `Ev`; the values they return are
  supplied by an environment record, one field per call site, so that a
  theorem quantifies over every behaviour of the device and of the channel.
  Reads of the clock and the ALSA size conversions are taken from the
  environment without a trace entry; memory management is not recorded.
* One call of a function is one sequential run: the engine fields are not
  changed by another thread while it runs.
* Constants that come from headers outside the two files (`glc.h`, `errno.h`,
  `asoundlib.h`) are the fields of `Consts`; every definition is parametric in
  them.
* A value passed for a parameter of a narrower type is converted at the
  call: `useconds_t` and `int` are 32 bits wide.
* `none` means the function does not return: a division by zero, a null
  dereference, a block freed twice, or an environment that ran out of device
  answers while a loop was still running.
-/

namespace Glc

/-! ## Constants, wire records and the trace -/

/-- Constants defined in headers that are not part of the two source files. -/
structure Consts where
  GLC_MESSAGE_AUDIO_FORMAT : Nat
  GLC_MESSAGE_AUDIO : Nat
  GLC_MESSAGE_HEADER_SIZE : Nat
  GLC_AUDIO_HEADER_SIZE : Nat
  GLC_AUDIO_FORMAT_MESSAGE_SIZE : Nat
  GLC_AUDIO_INTERLEAVED : Nat
  GLC_AUDIO_FORMAT_UNKNOWN : Nat
  GLC_AUDIO_S16_LE : Nat
  GLC_AUDIO_S24_LE : Nat
  GLC_AUDIO_S32_LE : Nat
  SND_PCM_FORMAT_S16_LE : Int
  SND_PCM_FORMAT_S24_LE : Int
  SND_PCM_FORMAT_S32_LE : Int
  SND_PCM_ACCESS_RW_INTERLEAVED : Int
  SND_PCM_ACCESS_RW_NONINTERLEAVED : Int
  SND_PCM_STREAM_PLAYBACK : Int
  SND_PCM_STREAM_CAPTURE : Int
  SND_PCM_NONBLOCK : Int
  PS_PACKET_WRITE : Int
  PS_ACCEPT_FAKE_DMA : Int
  EINTR : Int
  EAGAIN : Int
  EBUSY : Int
  EINVAL : Int
  EPIPE : Int
  ESTRPIPE : Int
  ENOTSUP : Int
  EALREADY : Int

/-- One assignment of the constants: the `errno.h` and `asoundlib.h` values of
Linux, and message types, flag bits and packed record sizes for `glc.h`. It
is used only to evaluate the model on concrete inputs; every general theorem
holds for all assignments. -/
def linux : Consts where
  GLC_MESSAGE_AUDIO_FORMAT := 5
  GLC_MESSAGE_AUDIO := 6
  GLC_MESSAGE_HEADER_SIZE := 1
  GLC_AUDIO_HEADER_SIZE := 20
  GLC_AUDIO_FORMAT_MESSAGE_SIZE := 16
  GLC_AUDIO_INTERLEAVED := 1
  GLC_AUDIO_FORMAT_UNKNOWN := 2
  GLC_AUDIO_S16_LE := 4
  GLC_AUDIO_S24_LE := 8
  GLC_AUDIO_S32_LE := 16
  SND_PCM_FORMAT_S16_LE := 2
  SND_PCM_FORMAT_S24_LE := 6
  SND_PCM_FORMAT_S32_LE := 10
  SND_PCM_ACCESS_RW_INTERLEAVED := 3
  SND_PCM_ACCESS_RW_NONINTERLEAVED := 4
  SND_PCM_STREAM_PLAYBACK := 0
  SND_PCM_STREAM_CAPTURE := 1
  SND_PCM_NONBLOCK := 1
  PS_PACKET_WRITE := 2
  PS_ACCEPT_FAKE_DMA := 1
  EINTR := 4
  EAGAIN := 11
  EBUSY := 16
  EINVAL := 22
  EPIPE := 32
  ESTRPIPE := 86
  ENOTSUP := 95
  EALREADY := 114

/-- Number of values of an unsigned 64-bit variable. -/
def U64 : Nat := 18446744073709551616

/-- A signed value stored into an unsigned 64-bit variable. -/
def toU64 (x : Int) : Nat := (x % 18446744073709551616).toNat

/-- Unsigned 64-bit subtraction `a - b` (both operands below `2^64`). -/
def subU64 (a b : Nat) : Nat := (a + U64 - b % U64) % U64

/-- An unsigned 64-bit value passed for a `useconds_t` parameter, a 32-bit
unsigned integer: the value `usleep` receives. -/
def toUseconds (x : Nat) : Nat := x % 4294967296

/-- An unsigned 64-bit value passed for an `int` parameter (32 bits, two's
complement): the value `snd_pcm_wait` receives as its timeout. -/
def toInt32 (x : Nat) : Int :=
  if x % 4294967296 < 2147483648 then ((x % 4294967296 : Nat) : Int)
  else ((x % 4294967296 : Nat) : Int) - 4294967296

/-- The record `glc_audio_header_t`. -/
structure AudioHdr where
  timestamp : Nat
  size : Nat
  audio : Int
  deriving DecidableEq, Repr

/-- The record `glc_audio_format_message_t`. -/
structure AudioFormatMsg where
  audio : Int
  flags : Nat
  rate : Nat
  channels : Nat
  deriving DecidableEq, Repr

/-- Severity argument of `glc_log`. -/
inductive LogLevel
  | GLC_ERROR
  | GLC_WARNING
  | GLC_INFORMATION
  | GLC_DEBUG
  deriving DecidableEq, Repr

/-- ALSA entry points called by the two files. -/
inductive AlsaFn
  | snd_pcm_open
  | snd_pcm_close
  | snd_pcm_hw_params_malloc
  | snd_pcm_hw_params_any
  | snd_pcm_hw_params_set_access
  | snd_pcm_hw_params_set_format
  | snd_pcm_hw_params_set_format_mask
  | snd_pcm_hw_params_set_channels
  | snd_pcm_hw_params_set_rate
  | snd_pcm_hw_params_get_buffer_size_max
  | snd_pcm_hw_params_set_buffer_size
  | snd_pcm_hw_params_get_periods_min
  | snd_pcm_hw_params_set_periods
  | snd_pcm_hw_params
  | snd_pcm_hw_params_free
  | snd_pcm_hw_params_get_period_size
  | snd_pcm_hw_params_get_format
  | snd_pcm_hw_params_get_rate
  | snd_pcm_hw_params_get_channels
  | snd_pcm_sw_params_malloc
  | snd_pcm_sw_params_current
  | snd_pcm_sw_params
  | snd_pcm_sw_params_free
  | snd_async_add_pcm_handler
  | snd_pcm_start
  | snd_pcm_prepare
  | snd_pcm_resume
  | snd_pcm_reset
  | snd_pcm_wait
  | snd_pcm_delay
  | snd_pcm_avail_update
  | snd_pcm_readi
  | snd_pcm_writei
  | snd_pcm_writen
  deriving DecidableEq, Repr

/-- What a `ps_packet_write` call copies into the open packet. -/
inductive Wire
  | msg_hdr (type : Nat)
  | audio_hdr (hdr : AudioHdr)
  | fmt_msg (msg : AudioFormatMsg)
  deriving DecidableEq, Repr

/-- One call that leaves the two source files. The integer arguments of an
ALSA call are listed in source order (handles and scratch pointers left out);
for `snd_pcm_writei` they are the byte offset into the payload and the frame
count, for `snd_pcm_writen` the frame count followed by the byte offset of
every channel buffer. The argument of `usleep` and the timeout of
`snd_pcm_wait` are the values the callee receives, after the conversion of the
`glc_utime_t` expression to the 32-bit parameter type. -/
inductive Ev
  | glc_log (level : LogLevel) (text : String)
  | fprintf (text : String)
  | usleep (usec : Nat)
  | sched_yield
  | alsa (fn : AlsaFn) (args : List Int)
  | ps_packet_init
  | ps_packet_open
  | ps_packet_write (data : Wire) (size : Nat)
  | ps_packet_dma (size : Nat)
  | ps_packet_setsize (size : Nat)
  | ps_packet_close
  | ps_packet_cancel
  | ps_packet_destroy
  deriving DecidableEq, Repr

/-- Device answers during one error recovery (`audio_play_xrun`,
`audio_capture_xrun`): the successive return values of `snd_pcm_resume`, and
the return values of `snd_pcm_prepare` and `snd_pcm_start`. -/
structure XrunEnv where
  resume : List Int
  prepare : Int
  start : Int

/-- The loop `while ((err = snd_pcm_resume(pcm)) == -EAGAIN) sched_yield();`
run against the successive answers of the device. Returns the last value of
`err`; `none` when every answer supplied was `-EAGAIN`. -/
def resume_loop (K : Consts) : List Int → Option (Int × List Ev)
  | [] => none
  | r :: rs =>
    if r = -K.EAGAIN then
      (resume_loop K rs).map
        (fun p => (p.1, Ev.alsa .snd_pcm_resume [] :: Ev.sched_yield :: p.2))
    else some (r, [Ev.alsa .snd_pcm_resume []])

/-- A run of statements of the form `if ((ret = call(...)) < 0) goto err;`,
given as the calls in source order with the value each returns: the calls
made, and the value of `ret` at the jump (`none`: no call failed). -/
def goto_err : List (Ev × Int) → List Ev × Option Int
  | [] => ([], none)
  | (e, r) :: rest =>
    if r < 0 then ([e], some r) else (e :: (goto_err rest).1, (goto_err rest).2)

/-! ## Playback: `audio_play.c` -/

/-- The fields of `struct audio_play_s` (the `glc` handle and the thread
descriptor belong to the harness). `pcm` is `none` for a null handle; `bufs`
is `none` for a null pointer, otherwise the scratch array, whose entries are
byte offsets into the payload (`none`: not yet assigned). -/
structure audio_play_s where
  running : Int
  silence_threshold : Nat
  audio_i : Int
  pcm : Option Nat
  device : String
  channels : Nat
  rate : Nat
  flags : Nat
  fmt : Int
  bufs : Option (List (Option Int))
  deriving DecidableEq, Repr

/-- The state `audio_play_init` builds. -/
def audio_play_init : audio_play_s where
  running := 0
  silence_threshold := 200000
  audio_i := 1
  pcm := none
  device := "default"
  channels := 0
  rate := 0
  flags := 0
  fmt := 0
  bufs := none

/-- The function `audio_play_set_stream_number`. -/
def audio_play_set_stream_number (ap : audio_play_s) (audio : Int) : Int × audio_play_s :=
  (0, { ap with audio_i := audio })

/-- The function `glc_fmt_to_pcm_fmt`. -/
def glc_fmt_to_pcm_fmt (K : Consts) (flags : Nat) : Int :=
  if flags &&& K.GLC_AUDIO_S16_LE ≠ 0 then K.SND_PCM_FORMAT_S16_LE
  else if flags &&& K.GLC_AUDIO_S24_LE ≠ 0 then K.SND_PCM_FORMAT_S24_LE
  else if flags &&& K.GLC_AUDIO_S32_LE ≠ 0 then K.SND_PCM_FORMAT_S32_LE
  else 0

/-- The function `audio_play_xrun`: returns the value and the calls made. -/
def audio_play_xrun (K : Consts) (err : Int) (env : XrunEnv) : Option (Int × List Ev) :=
  let lg := Ev.glc_log .GLC_DEBUG "xrun"
  if err = -K.EPIPE then
    if env.prepare < 0 then some (-env.prepare, [lg, .alsa .snd_pcm_prepare []])
    else some (0, [lg, .alsa .snd_pcm_prepare []])
  else if err = -K.ESTRPIPE then
    match resume_loop K env.resume with
    | none => none
    | some (e, tr) =>
      if e < 0 then
        if env.prepare < 0 then some (-env.prepare, lg :: tr ++ [.alsa .snd_pcm_prepare []])
        else some (0, lg :: tr ++ [.alsa .snd_pcm_prepare []])
      else some (-e, lg :: tr)
  else some (-err, [lg])

/-- Device answers during one hardware negotiation (`audio_play_hw`, and
`snd_pcm_open`, `snd_pcm_hw_params_malloc` and `audio_capture_init_hw` in
capture), one field per call site; a field with an output parameter carries
the value stored on success. `set_format` answers
`snd_pcm_hw_params_set_format` in playback and
`snd_pcm_hw_params_set_format_mask` in capture. -/
structure HwEnv where
  snd_pcm_open : Int × Nat
  hw_params_malloc : Int
  hw_params_any : Int
  set_access : Int
  set_format : Int
  set_channels : Int
  set_rate : Int
  get_buffer_size_max : Int × Nat
  set_buffer_size : Int
  get_periods_min : Int × Nat × Int
  set_periods : Int
  hw_params : Int

/-- The `err:` exit of `audio_play_hw`; `allocated` tells whether `hw_params`
is non-null. -/
def audio_play_hw_err (ap : audio_play_s) (ret : Int) (allocated : Bool) (tr : List Ev) :
    Int × audio_play_s × List Ev :=
  (-ret, ap, tr ++ [Ev.glc_log .GLC_ERROR "can't initialize pcm: %s (%d)"] ++
    (if allocated then [Ev.alsa .snd_pcm_hw_params_free []] else []))

/-- The negotiation calls of `audio_play_hw` that follow the allocation of
`hw_params`, in source order, each with the value the device returns. -/
def audio_play_hw_calls (K : Consts) (ap : audio_play_s) (env : HwEnv) : List (Ev × Int) :=
  [ (.alsa .snd_pcm_hw_params_any [], env.hw_params_any),
    (.alsa .snd_pcm_hw_params_set_access
        [if ap.flags &&& K.GLC_AUDIO_INTERLEAVED ≠ 0 then K.SND_PCM_ACCESS_RW_INTERLEAVED
         else K.SND_PCM_ACCESS_RW_NONINTERLEAVED], env.set_access),
    (.alsa .snd_pcm_hw_params_set_format [glc_fmt_to_pcm_fmt K ap.flags], env.set_format),
    (.alsa .snd_pcm_hw_params_set_channels [ap.channels], env.set_channels),
    (.alsa .snd_pcm_hw_params_set_rate [ap.rate, 0], env.set_rate),
    (.alsa .snd_pcm_hw_params_get_buffer_size_max [], env.get_buffer_size_max.1),
    (.alsa .snd_pcm_hw_params_set_buffer_size [env.get_buffer_size_max.2], env.set_buffer_size),
    (.alsa .snd_pcm_hw_params_get_periods_min [], env.get_periods_min.1),
    (.alsa .snd_pcm_hw_params_set_periods
        [if env.get_periods_min.2.1 < 2 then 2 else env.get_periods_min.2.1,
         env.get_periods_min.2.2], env.set_periods),
    (.alsa .snd_pcm_hw_params [], env.hw_params) ]

/-- The function `audio_play_hw`. -/
def audio_play_hw (K : Consts) (ap : audio_play_s) (fmt_msg : AudioFormatMsg) (env : HwEnv) :
    Int × audio_play_s × List Ev :=
  if fmt_msg.audio ≠ ap.audio_i then (0, ap, [])
  else
    let ap1 : audio_play_s :=
      { ap with flags := fmt_msg.flags, rate := fmt_msg.rate, channels := fmt_msg.channels }
    let reopen : List Ev := match ap.pcm with
      | some h => [.alsa .snd_pcm_close [h]]
      | none => []
    let opening : List Ev :=
      reopen ++ [.alsa .snd_pcm_open [K.SND_PCM_STREAM_PLAYBACK, K.SND_PCM_NONBLOCK]]
    if env.snd_pcm_open.1 < 0 then audio_play_hw_err ap1 env.snd_pcm_open.1 false opening
    else
      let ap2 : audio_play_s := { ap1 with pcm := some env.snd_pcm_open.2 }
      if env.hw_params_malloc < 0 then
        audio_play_hw_err ap2 env.hw_params_malloc false
          (opening ++ [.alsa .snd_pcm_hw_params_malloc []])
      else
        match goto_err (audio_play_hw_calls K ap2 env) with
        | (tr, some ret) =>
          audio_play_hw_err ap2 ret true (opening ++ .alsa .snd_pcm_hw_params_malloc [] :: tr)
        | (tr, none) =>
          (0, { ap2 with bufs := some (List.replicate ap2.channels none) },
            opening ++ .alsa .snd_pcm_hw_params_malloc [] :: tr ++
              [.alsa .snd_pcm_hw_params_free []])

/-- What the clock and the device answer during one `audio_play_play` call:
the three ALSA size conversions (functions of the negotiated sample layout),
the value of `glc_state_time`, and one `WriteStep` per iteration of the write
loop. -/
structure WriteStep where
  ret : Int
  xrun : XrunEnv

/-- Environment of one `audio_play_play` call. -/
structure PlayEnv where
  bytes_to_frames : Nat → Int
  frames_to_bytes : Nat → Int
  samples_to_bytes : Nat → Int
  time : Nat
  writes : List WriteStep

/-- The write call of one loop iteration: `snd_pcm_writei` at the byte offset
of frame `frames - rem`, or, for a planar stream, the assignment of the
scratch pointers `bufs[0 .. channels-1]` followed by `snd_pcm_writen`
(`none`: the assignment goes through a null pointer or past the array). -/
def play_write (K : Consts) (env : PlayEnv) (frames : Nat) (ap : audio_play_s) (rem : Nat) :
    Option (audio_play_s × Ev) :=
  if ap.flags &&& K.GLC_AUDIO_INTERLEAVED ≠ 0 then
    some (ap, .alsa .snd_pcm_writei [env.frames_to_bytes (subU64 frames rem), rem])
  else if ap.channels = 0 then
    some (ap, .alsa .snd_pcm_writen [rem])
  else
    match ap.bufs with
    | none => none
    | some old =>
      if old.length < ap.channels then none
      else
        let offs : List Int := (List.range ap.channels).map
          (fun c => env.samples_to_bytes frames * c + env.samples_to_bytes (subU64 frames rem))
        some ({ ap with bufs := some (offs.map some ++ old.drop ap.channels) },
          .alsa .snd_pcm_writen ((rem : Int) :: offs))

/-- The loop `while (rem > 0)` of `audio_play_play`. -/
def play_loop (K : Consts) (env : PlayEnv) (frames duration : Nat) :
    audio_play_s → Nat → List WriteStep → Option (Int × audio_play_s × List Ev)
  | ap, rem, steps =>
    if rem = 0 then some (0, ap, [])
    else
      match steps with
      | [] => none
      | s :: rest =>
        match play_write K env frames ap rem with
        | none => none
        | some (ap1, w) =>
          let pre : List Ev := [.alsa .snd_pcm_wait [toInt32 duration], w]
          if s.ret = 0 then some (0, ap1, pre)
          else if s.ret = -K.EBUSY ∨ s.ret = -K.EAGAIN then some (0, ap1, pre)
          else if s.ret < 0 then
            match audio_play_xrun K s.ret s.xrun with
            | none => none
            | some (r, tr) =>
              if r ≠ 0 then
                some (r, ap1, pre ++ tr ++ [.glc_log .GLC_ERROR "xrun recovery failed: %s"])
              else
                (play_loop K env frames duration ap1 rem rest).map
                  (fun q => (q.1, q.2.1, pre ++ tr ++ q.2.2))
          else
            (play_loop K env frames duration ap1 (subU64 rem (toU64 s.ret)) rest).map
              (fun q => (q.1, q.2.1, pre ++ q.2.2))

/-- The duration `(1000000 * frames) / rate` computed in `unsigned long`. -/
def play_duration (frames rate : Nat) : Nat := ((1000000 * frames) % U64) / rate

/-- The function `audio_play_play`. -/
def audio_play_play (K : Consts) (ap : audio_play_s) (audio_hdr : AudioHdr) (env : PlayEnv) :
    Option (Int × audio_play_s × List Ev) :=
  if audio_hdr.audio ≠ ap.audio_i then some (0, ap, [])
  else
    match ap.pcm with
    | none => some (K.EINVAL, ap, [.glc_log .GLC_ERROR "broken stream %d"])
    | some _ =>
      let frames := toU64 (env.bytes_to_frames audio_hdr.size)
      let time := env.time
      if ap.rate = 0 then none
      else
        let duration := play_duration frames ap.rate
        if (time + ap.silence_threshold + duration) % U64 < audio_hdr.timestamp then
          (play_loop K env frames duration ap frames env.writes).map
            (fun q => (q.1, q.2.1,
              Ev.usleep (toUseconds (subU64 (subU64 audio_hdr.timestamp time) duration)) ::
                q.2.2))
        else if time > audio_hdr.timestamp then
          some (0, ap, [.glc_log .GLC_WARNING "dropped packet"])
        else
          play_loop K env frames duration ap frames env.writes

/-- The part of `glc_thread_state_t` the read callback looks at: the message
type and the two views of `read_data` the callback casts it to. -/
structure glc_thread_state where
  type : Nat
  as_format : AudioFormatMsg
  as_audio : AudioHdr

/-- Environment of one `audio_play_read_callback` call. -/
structure CallbackEnv where
  hw : HwEnv
  play : PlayEnv

/-- The function `audio_play_read_callback`. -/
def audio_play_read_callback (K : Consts) (ap : audio_play_s) (state : glc_thread_state)
    (env : CallbackEnv) : Option (Int × audio_play_s × List Ev) :=
  if state.type = K.GLC_MESSAGE_AUDIO_FORMAT then
    some (audio_play_hw K ap state.as_format env.hw)
  else if state.type = K.GLC_MESSAGE_AUDIO then
    audio_play_play K ap state.as_audio env.play
  else some (0, ap, [])

/-! ## Concrete inputs used to evaluate the playback model -/

/-- A recovery environment in which `snd_pcm_prepare` and `snd_pcm_start`
succeed and `snd_pcm_resume` is never answered. -/
def ex_xrun : XrunEnv := ⟨[], 0, 0⟩

/-- A playback engine configured for stream 1: interleaved signed 16-bit
stereo at 48000 Hz, default silence threshold. -/
def ex_play : audio_play_s :=
  { audio_play_init with
    pcm := some 7, rate := 48000, channels := 2, flags := 5, bufs := some [none, none] }

/-- The format descriptor of stream 1: 48000 Hz, 2 channels, interleaved
signed 16-bit. -/
def ex_fmt : AudioFormatMsg := ⟨1, 5, 48000, 2⟩

/-- A device that accepts every negotiation step of `audio_play_hw`. -/
def ex_hw : HwEnv := ⟨(0, 7), 0, 0, 0, 0, 0, 0, (0, 16384), 0, (0, 2, 0), 0, 0⟩

/-- A playback environment for 4-byte frames of two 2-byte samples: the clock
reads `t` and the write loop receives the answers `w`. -/
def ex_env (t : Nat) (w : List Int) : PlayEnv :=
  ⟨fun b => b / 4, fun f => f * 4, fun x => x * 2, t, w.map (fun r => ⟨r, ex_xrun⟩)⟩

/-! ## Capture: `audio_capture.c` -/

/-- The fields of `struct audio_capture_s` (the `glc` handle, the target
buffer, the thread and the semaphore belong to the harness). `pcm` and
`async_handler` are `none` for a null pointer. -/
structure audio_capture_s where
  id : Int
  pcm : Option Nat
  period_size : Nat
  flags : Nat
  device : String
  channels : Nat
  rate : Nat
  min_periods : Nat
  format : Int
  bytes_per_frame : Int
  rate_usec : Int
  period_size_in_bytes : Nat
  async_handler : Option Nat
  skip_data : Int
  stop_capture : Int
  deriving DecidableEq, Repr

/-- The state `audio_capture_init` builds; `id` is the stream number handed
out by `glc_state_audio_new`. -/
def audio_capture_init (id : Int) : audio_capture_s where
  id := id
  pcm := none
  period_size := 0
  flags := 0
  device := "default"
  channels := 2
  rate := 44100
  min_periods := 2
  format := 0
  bytes_per_frame := 0
  rate_usec := 0
  period_size_in_bytes := 0
  async_handler := none
  skip_data := 1
  stop_capture := 0

/-- The function `audio_capture_set_rate`. -/
def audio_capture_set_rate (K : Consts) (ac : audio_capture_s) (rate : Nat) :
    Int × audio_capture_s :=
  if ac.pcm ≠ none then (K.EALREADY, ac) else (0, { ac with rate := rate })

/-- The function `audio_capture_set_channels`. -/
def audio_capture_set_channels (K : Consts) (ac : audio_capture_s) (channels : Nat) :
    Int × audio_capture_s :=
  if ac.pcm ≠ none then (K.EALREADY, ac) else (0, { ac with channels := channels })

/-- The function `audio_capture_fmt_flags`. -/
def audio_capture_fmt_flags (K : Consts) (pcm_fmt : Int) : Nat :=
  if pcm_fmt = K.SND_PCM_FORMAT_S16_LE then K.GLC_AUDIO_S16_LE
  else if pcm_fmt = K.SND_PCM_FORMAT_S24_LE then K.GLC_AUDIO_S24_LE
  else if pcm_fmt = K.SND_PCM_FORMAT_S32_LE then K.GLC_AUDIO_S32_LE
  else K.GLC_AUDIO_FORMAT_UNKNOWN

/-- The function `audio_capture_xrun`: returns the value and the calls made. -/
def audio_capture_xrun (K : Consts) (err : Int) (env : XrunEnv) : Option (Int × List Ev) :=
  if err = -K.EPIPE then
    if env.prepare < 0 then
      some (-env.prepare, [.glc_log .GLC_DEBUG "xrun", .alsa .snd_pcm_prepare []])
    else if env.start < 0 then
      some (-env.start,
        [.glc_log .GLC_DEBUG "xrun", .alsa .snd_pcm_prepare [], .alsa .snd_pcm_start []])
    else
      some (0, [.glc_log .GLC_DEBUG "xrun", .alsa .snd_pcm_prepare [], .alsa .snd_pcm_start []])
  else if err = -K.ESTRPIPE then
    match resume_loop K env.resume with
    | none => none
    | some (e, tr) =>
      if e < 0 then
        if env.prepare < 0 then
          some (-env.prepare, .glc_log .GLC_DEBUG "xrun" :: tr ++ [.alsa .snd_pcm_prepare []])
        else if env.start < 0 then
          some (-env.start, .glc_log .GLC_DEBUG "xrun" :: tr ++
            [.alsa .snd_pcm_prepare [], .alsa .snd_pcm_start []])
        else
          some (0, .glc_log .GLC_DEBUG "xrun" :: tr ++
            [.alsa .snd_pcm_prepare [], .alsa .snd_pcm_start []])
      else some (-e, .glc_log .GLC_DEBUG "xrun" :: tr)
  else some (-err, [.glc_log .GLC_DEBUG "xrun"])

/-- The calls of `audio_capture_init_hw`, in source order, each with the value
the device returns. -/
def audio_capture_init_hw_calls (K : Consts) (ac : audio_capture_s) (env : HwEnv) :
    List (Ev × Int) :=
  [ (.alsa .snd_pcm_hw_params_any [], env.hw_params_any),
    (.alsa .snd_pcm_hw_params_set_access [K.SND_PCM_ACCESS_RW_INTERLEAVED], env.set_access),
    (.alsa .snd_pcm_hw_params_set_format_mask
        [K.SND_PCM_FORMAT_S16_LE, K.SND_PCM_FORMAT_S24_LE, K.SND_PCM_FORMAT_S32_LE],
      env.set_format),
    (.alsa .snd_pcm_hw_params_set_channels [ac.channels], env.set_channels),
    (.alsa .snd_pcm_hw_params_set_rate [ac.rate, 0], env.set_rate),
    (.alsa .snd_pcm_hw_params_get_buffer_size_max [], env.get_buffer_size_max.1),
    (.alsa .snd_pcm_hw_params_set_buffer_size [env.get_buffer_size_max.2], env.set_buffer_size),
    (.alsa .snd_pcm_hw_params_get_periods_min [], env.get_periods_min.1),
    (.alsa .snd_pcm_hw_params_set_periods
        [if env.get_periods_min.2.1 < ac.min_periods then ac.min_periods
         else env.get_periods_min.2.1, env.get_periods_min.2.2], env.set_periods),
    (.alsa .snd_pcm_hw_params [], env.hw_params) ]

/-- The function `audio_capture_init_hw`. -/
def audio_capture_init_hw (K : Consts) (ac : audio_capture_s) (env : HwEnv) : Int × List Ev :=
  match goto_err (audio_capture_init_hw_calls K ac env) with
  | (tr, some ret) => (-ret, tr)
  | (tr, none) => (0, tr)

/-- Device answers during one `audio_capture_open` call, one field per call
site; a field with an output parameter carries the value stored when the call
returns a non-negative value. -/
structure OpenEnv where
  hw : HwEnv
  sw_params_malloc : Int
  sw_params_current : Int
  sw_params : Int
  get_period_size : Int × Nat
  frames_to_bytes : Int
  get_format : Int × Int
  get_rate : Int × Nat × Int
  get_channels : Int × Nat
  async_add_pcm_handler : Int × Nat
  snd_pcm_start : Int

/-- The function `audio_capture_init_sw`. -/
def audio_capture_init_sw (env : OpenEnv) : Int × List Ev :=
  if env.sw_params_current < 0 then (-env.sw_params_current, [.alsa .snd_pcm_sw_params_current []])
  else if env.sw_params ≠ 0 then
    (-env.sw_params, [.alsa .snd_pcm_sw_params_current [], .alsa .snd_pcm_sw_params []])
  else (0, [.alsa .snd_pcm_sw_params_current [], .alsa .snd_pcm_sw_params []])

/-- The `err:` exit of `audio_capture_open`; `hw` and `sw` tell whether
`hw_params` and `sw_params` are non-null. -/
def audio_capture_open_err (ac : audio_capture_s) (ret : Int) (hw sw : Bool) (tr : List Ev) :
    Int × audio_capture_s × List Ev :=
  (-ret, ac, tr ++ (if hw then [Ev.alsa .snd_pcm_hw_params_free []] else []) ++
    (if sw then [Ev.alsa .snd_pcm_sw_params_free []] else []) ++
    [Ev.glc_log .GLC_ERROR "initialization failed: %s"])

/-- Lines 233-261 of `audio_capture_open`: the format message is sent, the
parameter blocks are freed, the asynchronous handler is registered and the
device is started. `none`: `snd_async_add_pcm_handler` or `snd_pcm_start`
fails and the `err:` exit frees `hw_params` and `sw_params` a second time. -/
def audio_capture_open_announce (K : Consts) (ac : audio_capture_s) (env : OpenEnv) :
    Option (Int × audio_capture_s × List Ev) :=
  if env.async_add_pcm_handler.1 < 0 then none
  else if env.snd_pcm_start < 0 then none
  else
    some (0, { ac with async_handler := some env.async_add_pcm_handler.2 },
      [ .ps_packet_init, .ps_packet_open,
        .ps_packet_write (.msg_hdr K.GLC_MESSAGE_AUDIO_FORMAT) K.GLC_MESSAGE_HEADER_SIZE,
        .ps_packet_write (.fmt_msg ⟨ac.id, ac.flags, ac.rate, ac.channels⟩)
          K.GLC_AUDIO_FORMAT_MESSAGE_SIZE,
        .ps_packet_close, .ps_packet_destroy,
        .alsa .snd_pcm_hw_params_free [], .alsa .snd_pcm_sw_params_free [],
        .alsa .snd_async_add_pcm_handler [], .alsa .snd_pcm_start [],
        .glc_log .GLC_DEBUG "success (stream=%d, device=%s, rate=%u, channels=%u)" ])

/-- Lines 209-231 of `audio_capture_open`, followed by the rest of the
function: the negotiated period size, format, rate and channels are read back,
`rate_usec` and the flags are derived, and an unsupported format returns
`ENOTSUP`. `none`: the negotiated rate is 0 and `1000000 / rate` traps, or the
rest of the function does not return. -/
def audio_capture_open_settings (K : Consts) (ac : audio_capture_s) (env : OpenEnv) :
    Option (Int × audio_capture_s × List Ev) :=
  let ac1 : audio_capture_s :=
    if 0 ≤ env.get_period_size.1 then { ac with period_size := env.get_period_size.2 } else ac
  if env.get_period_size.1 ≠ 0 then
    some (audio_capture_open_err ac1 env.get_period_size.1 true true
      [.alsa .snd_pcm_hw_params_get_period_size []])
  else
    let ac2 : audio_capture_s :=
      { ac1 with
        bytes_per_frame := env.frames_to_bytes
        period_size_in_bytes := (ac1.period_size * toU64 env.frames_to_bytes) % U64 }
    if env.get_format.1 < 0 then
      some (audio_capture_open_err ac2 env.get_format.1 true true
        [.alsa .snd_pcm_hw_params_get_period_size [], .alsa .snd_pcm_hw_params_get_format []])
    else if env.get_rate.1 < 0 then
      some (audio_capture_open_err { ac2 with format := env.get_format.2 } env.get_rate.1 true true
        [.alsa .snd_pcm_hw_params_get_period_size [], .alsa .snd_pcm_hw_params_get_format [],
         .alsa .snd_pcm_hw_params_get_rate []])
    else if env.get_channels.1 < 0 then
      some (audio_capture_open_err
        { ac2 with format := env.get_format.2, rate := env.get_rate.2.1 }
        env.get_channels.1 true true
        [.alsa .snd_pcm_hw_params_get_period_size [], .alsa .snd_pcm_hw_params_get_format [],
         .alsa .snd_pcm_hw_params_get_rate [], .alsa .snd_pcm_hw_params_get_channels []])
    else if env.get_rate.2.1 = 0 then none
    else
      let ac3 : audio_capture_s :=
        { ac2 with
          format := env.get_format.2
          rate := env.get_rate.2.1
          channels := env.get_channels.2
          rate_usec := ((1000000 / env.get_rate.2.1 : Nat) : Int)
          flags := K.GLC_AUDIO_INTERLEAVED ||| audio_capture_fmt_flags K env.get_format.2 }
      if ac3.flags &&& K.GLC_AUDIO_FORMAT_UNKNOWN ≠ 0 then
        some (K.ENOTSUP, ac3,
          [.alsa .snd_pcm_hw_params_get_period_size [], .alsa .snd_pcm_hw_params_get_format [],
           .alsa .snd_pcm_hw_params_get_rate [], .alsa .snd_pcm_hw_params_get_channels [],
           .glc_log .GLC_ERROR "unsupported audio format 0x%02x"])
      else
        (audio_capture_open_announce K ac3 env).map
          (fun r => (r.1, r.2.1,
            [.alsa .snd_pcm_hw_params_get_period_size [], .alsa .snd_pcm_hw_params_get_format [],
             .alsa .snd_pcm_hw_params_get_rate [], .alsa .snd_pcm_hw_params_get_channels []] ++
              r.2.2))

/-- The function `audio_capture_open`. -/
def audio_capture_open (K : Consts) (ac : audio_capture_s) (env : OpenEnv) :
    Option (Int × audio_capture_s × List Ev) :=
  let t0 : List Ev :=
    [ .glc_log .GLC_DEBUG "opening device %s",
      .alsa .snd_pcm_open [K.SND_PCM_STREAM_CAPTURE, 0] ]
  if env.hw.snd_pcm_open.1 < 0 then
    some (audio_capture_open_err ac env.hw.snd_pcm_open.1 false false t0)
  else
    let ac1 : audio_capture_s := { ac with pcm := some env.hw.snd_pcm_open.2 }
    let t1 := t0 ++ [.alsa .snd_pcm_hw_params_malloc []]
    if env.hw.hw_params_malloc < 0 then
      some (audio_capture_open_err ac1 env.hw.hw_params_malloc false false t1)
    else
      let hw := audio_capture_init_hw K ac1 env.hw
      if -hw.1 ≠ 0 then some (audio_capture_open_err ac1 (-hw.1) true false (t1 ++ hw.2))
      else
        let t2 := t1 ++ hw.2 ++ [.alsa .snd_pcm_sw_params_malloc []]
        if env.sw_params_malloc < 0 then
          some (audio_capture_open_err ac1 env.sw_params_malloc true false t2)
        else
          let sw := audio_capture_init_sw env
          if -sw.1 ≠ 0 then some (audio_capture_open_err ac1 (-sw.1) true true (t2 ++ sw.2))
          else
            (audio_capture_open_settings K ac1 env).map
              (fun r => (r.1, r.2.1, t2 ++ sw.2 ++ r.2.2))

/-- The function `audio_capture_start`; the engine pointer is `none` when
null. -/
def audio_capture_start (K : Consts) (audio_capture : Option audio_capture_s) (env : OpenEnv) :
    Option (Int × Option audio_capture_s × List Ev) :=
  match audio_capture with
  | none => some (K.EINVAL, none, [])
  | some ac =>
    let lg : Ev :=
      if ac.skip_data ≠ 0 then .glc_log .GLC_WARNING "device %s already started"
      else .glc_log .GLC_INFORMATION "starting device %s"
    match ac.pcm with
    | none =>
      match audio_capture_open K ac env with
      | none => none
      | some (ret, ac1, tr) =>
        if ret ≠ 0 then some (ret, some ac1, lg :: tr)
        else some (0, some { ac1 with skip_data := 0 }, lg :: tr)
    | some _ => some (0, some { ac with skip_data := 0 }, [lg])

/-- The function `audio_capture_stop`; the engine pointer is `none` when
null. -/
def audio_capture_stop (K : Consts) (audio_capture : Option audio_capture_s) :
    Int × Option audio_capture_s × List Ev :=
  match audio_capture with
  | none => (K.EINVAL, none, [])
  | some ac =>
    let lg : Ev :=
      if ac.skip_data ≠ 0 then .glc_log .GLC_INFORMATION "stopping device %s"
      else .glc_log .GLC_WARNING "device %s already stopped"
    (0, some { ac with skip_data := 1 }, [lg])

/-- What the clock, the device and the channel answer during one iteration of
the loop `while (avail >= period_size)` of `audio_capture_thread`, one field
per call site. `delay` carries the return value of the closing
`snd_pcm_delay` and the frame count it stores on success. -/
structure PeriodEnv where
  avail_update : Int
  time : Nat
  ps_packet_open : Int
  ps_packet_write_msg : Int
  ps_packet_write_hdr : Int
  ps_packet_dma : Int
  readi : Int
  read_xrun : XrunEnv
  ps_packet_setsize : Int
  ps_packet_close : Int
  delay : Int × Int
  delay_xrun : XrunEnv
  ps_packet_cancel : Int

/-- How one iteration of the period loop ends: `again avail` goes back to the
loop test with this value of `avail`, `leave` is `break`. -/
inductive LoopCtl
  | again (avail : Int)
  | leave
  deriving DecidableEq, Repr

/-- Lines 398-405 of `audio_capture_thread`: the header prepared for the
period, from the clock reading `time` and the frame count `avail`. -/
def capture_hdr (ac : audio_capture_s) (time : Nat) (avail : Int) : AudioHdr :=
  let delay_usec := toU64 (avail * ac.rate_usec)
  { timestamp := if delay_usec < time then time - delay_usec else time
    size := ac.period_size_in_bytes
    audio := ac.id }

/-- The `cancel:` block of `audio_capture_thread`, entered with `ret`. -/
def capture_cancel (K : Consts) (env : PeriodEnv) (avail ret : Int) (tr : List Ev) :
    LoopCtl × List Ev :=
  if ret = K.EINTR then (.leave, tr ++ [.glc_log .GLC_ERROR "%s (%d)"])
  else if env.ps_packet_cancel ≠ 0 then
    (.leave, tr ++ [.glc_log .GLC_ERROR "%s (%d)", .ps_packet_cancel])
  else (.again avail, tr ++ [.glc_log .GLC_ERROR "%s (%d)", .ps_packet_cancel])

/-- Lines 416-417: `snd_pcm_readi` and, on a negative return, the recovery;
the value left in `read` and the calls made. -/
def capture_read (K : Consts) (ac : audio_capture_s) (env : PeriodEnv) :
    Option (Int × List Ev) :=
  if env.readi < 0 then
    (audio_capture_xrun K env.readi env.read_xrun).map
      (fun p => (-p.1, Ev.alsa .snd_pcm_readi [ac.period_size] :: p.2))
  else some (env.readi, [.alsa .snd_pcm_readi [ac.period_size]])

/-- Lines 419-425: the log entry that follows the read. The comparison of
`read` with `period_size` is made in `unsigned long`. -/
def capture_read_log (ac : audio_capture_s) (read : Int) : List Ev :=
  if toU64 read ≠ ac.period_size then [.glc_log .GLC_WARNING "read %ld, expected %ld"]
  else if read < 0 then [.glc_log .GLC_ERROR "xrun recovery failed: %s"]
  else []

/-- Lines 427-448: the packet is resized and closed and the device is polled,
with `read` the value left by `capture_read` and `tr` the calls made so far. -/
def capture_commit (K : Consts) (ac : audio_capture_s) (env : PeriodEnv) (avail read : Int)
    (tr : List Ev) : Option (LoopCtl × List Ev) :=
  let size := toU64 (read * ac.bytes_per_frame)
  let sized : List Ev := tr ++
    [.ps_packet_setsize ((K.GLC_MESSAGE_HEADER_SIZE + K.GLC_AUDIO_HEADER_SIZE + size) % U64)]
  if env.ps_packet_setsize ≠ 0 then some (capture_cancel K env avail env.ps_packet_setsize sized)
  else if env.ps_packet_close ≠ 0 then
    some (capture_cancel K env avail env.ps_packet_close (sized ++ [.ps_packet_close]))
  else if env.delay.1 < 0 then
    (audio_capture_xrun K env.delay.1 env.delay_xrun).map
      (fun p => (.leave, sized ++ [.ps_packet_close, .alsa .snd_pcm_delay []] ++ p.2))
  else some (.again env.delay.2, sized ++ [.ps_packet_close, .alsa .snd_pcm_delay []])

/-- One iteration of the loop `while (avail >= period_size)` of
`audio_capture_thread` (lines 386-448). -/
def capture_period (K : Consts) (ac : audio_capture_s) (env : PeriodEnv) :
    Option (LoopCtl × List Ev) :=
  let avail := env.avail_update
  if toU64 avail < ac.period_size then some (.again avail, [.alsa .snd_pcm_avail_update []])
  else if ac.skip_data ≠ 0 then
    some (.again avail,
      [.alsa .snd_pcm_avail_update [], .fprintf "snd_pcm_reset()\n", .alsa .snd_pcm_reset []])
  else
    let hdr := capture_hdr ac env.time avail
    let opened : List Ev := [.alsa .snd_pcm_avail_update [], .ps_packet_open]
    let typed : List Ev :=
      opened ++ [.ps_packet_write (.msg_hdr K.GLC_MESSAGE_AUDIO) K.GLC_MESSAGE_HEADER_SIZE]
    let headed : List Ev :=
      typed ++ [.ps_packet_write (.audio_hdr hdr) K.GLC_AUDIO_HEADER_SIZE]
    if env.ps_packet_open ≠ 0 then some (capture_cancel K env avail env.ps_packet_open opened)
    else if env.ps_packet_write_msg ≠ 0 then
      some (capture_cancel K env avail env.ps_packet_write_msg typed)
    else if env.ps_packet_write_hdr ≠ 0 then
      some (capture_cancel K env avail env.ps_packet_write_hdr headed)
    else if env.ps_packet_dma ≠ 0 then
      some (capture_cancel K env avail env.ps_packet_dma (headed ++ [.ps_packet_dma hdr.size]))
    else
      match capture_read K ac env with
      | none => none
      | some (read, rd) =>
        capture_commit K ac env avail read
          (headed ++ .ps_packet_dma hdr.size :: rd ++ capture_read_log ac read)

/-- The loop `while (avail >= period_size)` of `audio_capture_thread`, one
`PeriodEnv` per iteration (`none`: the answers supplied ran out). -/
def capture_loop (K : Consts) (ac : audio_capture_s) : Int → List PeriodEnv → Option (List Ev)
  | avail, envs =>
    if toU64 avail < ac.period_size then some []
    else
      match envs with
      | [] => none
      | env :: rest =>
        match capture_period K ac env with
        | none => none
        | some (.leave, tr) => some tr
        | some (.again avail1, tr) => (capture_loop K ac avail1 rest).map (fun t => tr ++ t)

/-! ## Concrete inputs used to evaluate the capture model -/

/-- A device that accepts every step of `audio_capture_open` and negotiates
44100 Hz, 2 channels, signed 16-bit, periods of 1024 frames of 4 bytes. -/
def ex_open : OpenEnv :=
  ⟨ex_hw, 0, 0, 0, (0, 1024), 4, (0, 2), (0, 44100, 0), (0, 2), (0, 9), 0⟩

/-- The capture engine of stream 1 after a successful `audio_capture_start`
against `ex_open`. -/
def ex_capture : audio_capture_s :=
  { audio_capture_init 1 with
    pcm := some 7, period_size := 1024, flags := 5, format := 2, bytes_per_frame := 4,
    rate_usec := 22, period_size_in_bytes := 4096, async_handler := some 9, skip_data := 0 }

/-- One period in which every channel operation succeeds: the clock reads `t`,
`a` frames are available and `snd_pcm_readi` returns `r`; a failing recovery
answers `prepare` to `snd_pcm_prepare`. -/
def ex_period (t : Nat) (a r prepare : Int) : PeriodEnv :=
  ⟨a, t, 0, 0, 0, 0, r, ⟨[], prepare, 0⟩, 0, 0, (0, 0), ex_xrun, 0⟩

/-! ## Vocabulary of the statements about the write loop and the failed open -/

/-- Sum of the positive values in a list of write results. -/
def positive_sum : List Int → Nat
  | [] => 0
  | r :: rs => (if 0 < r then r.toNat else 0) + positive_sum rs

/-- Whether a trace entry is a device write (`snd_pcm_writei` or
`snd_pcm_writen`). -/
def Ev.is_write_call : Ev → Bool
  | .alsa .snd_pcm_writei _ => true
  | .alsa .snd_pcm_writen _ => true
  | _ => false

/-- The device writes of a trace, in call order. -/
def write_calls (tr : List Ev) : List Ev := tr.filter Ev.is_write_call

/-- The write call of an attempt that starts at frame `s` of a message of `n`
frames: `n - s` frames, at byte offset `frames_to_bytes(s)` for an interleaved
stream, and for a planar stream with channel `c` at
`samples_to_bytes(n) * c + samples_to_bytes(s)`. -/
def expected_write (K : Consts) (env : PlayEnv) (ap : audio_play_s) (n s : Nat) : Ev :=
  if ap.flags &&& K.GLC_AUDIO_INTERLEAVED ≠ 0 then
    .alsa .snd_pcm_writei [env.frames_to_bytes s, ((n - s : Nat) : Int)]
  else
    .alsa .snd_pcm_writen (((n - s : Nat) : Int) ::
      (List.range ap.channels).map
        (fun c => env.samples_to_bytes n * c + env.samples_to_bytes s))

/-- The engine can issue a write: the stream is interleaved, or it has no
channel, or the scratch array is allocated with room for every channel. -/
def scratch_ready (K : Consts) (ap : audio_play_s) : Prop :=
  ap.flags &&& K.GLC_AUDIO_INTERLEAVED ≠ 0 ∨ ap.channels = 0 ∨
    ∃ old, ap.bufs = some old ∧ ap.channels ≤ old.length

/-- A finished run of the write loop entered with `rem` of `n` frames
outstanding, against the write results `rets`, returning `r` with trace `tr`:
it made `m` attempts, the `k`-th at the frame reached by the earlier positive
results; every attempt found frames outstanding; a zero, `-EBUSY` or `-EAGAIN`
result was the last attempt and the run returned 0; a positive result that
left frames outstanding was followed by another attempt; the positive results
never exceeded `rem`; and the run returned 0 when they used it up. -/
def render_report (K : Consts) (env : PlayEnv) (ap : audio_play_s) (n rem : Nat)
    (rets : List Int) (r : Int) (tr : List Ev) : Prop :=
  ∃ m, m ≤ rets.length ∧
    write_calls tr = (List.range m).map
      (fun k => expected_write K env ap n (n - rem + positive_sum (rets.take k))) ∧
    (0 < rem → 0 < m) ∧
    (∀ k, k < m → positive_sum (rets.take k) < rem) ∧
    (∀ k x, k < m → rets[k]? = some x → (x = 0 ∨ x = -K.EBUSY ∨ x = -K.EAGAIN) →
      k + 1 = m ∧ r = 0) ∧
    (∀ k x, k < m → rets[k]? = some x → 0 < x → positive_sum (rets.take (k + 1)) < rem →
      k + 1 < m) ∧
    positive_sum (rets.take m) ≤ rem ∧
    (positive_sum (rets.take m) = rem → r = 0)

/-- Some step of the negotiation in `audio_capture_open` that follows
`snd_pcm_open` fails (lines 198-221), or the negotiated format is none of the
three supported ones (line 227). -/
def negotiation_fails (K : Consts) (ac : audio_capture_s) (env : OpenEnv) : Prop :=
  env.hw.hw_params_malloc < 0 ∨ (audio_capture_init_hw K ac env.hw).1 ≠ 0 ∨
    env.sw_params_malloc < 0 ∨ (audio_capture_init_sw env).1 ≠ 0 ∨
    env.get_period_size.1 ≠ 0 ∨ env.get_format.1 < 0 ∨ env.get_rate.1 < 0 ∨
    env.get_channels.1 < 0 ∨
    (K.GLC_AUDIO_INTERLEAVED ||| audio_capture_fmt_flags K env.get_format.2) &&&
      K.GLC_AUDIO_FORMAT_UNKNOWN ≠ 0

/-- Whether a trace entry belongs to the completion of `audio_capture_open`:
the format message, the registration of the asynchronous handler, or the start
of the device. -/
def Ev.announces : Ev → Bool
  | .ps_packet_write (.fmt_msg _) _ => true
  | .alsa .snd_async_add_pcm_handler _ => true
  | .alsa .snd_pcm_start _ => true
  | _ => false

/-- A device that opens but rejects the requested rate: every answer is that
of `ex_open`, except that `snd_pcm_hw_params_set_rate` returns -22. -/
def ex_open_bad : OpenEnv :=
  { ex_open with hw := { ex_hw with set_rate := -22 } }

/-- The resume loop of a recovery ends: the device answers `snd_pcm_resume`
with something other than `-EAGAIN` at some point. -/
def recovers (K : Consts) (env : XrunEnv) : Prop := ∃ r ∈ env.resume, r ≠ -K.EAGAIN

/-! # Properties -/

/-! ## Arithmetic of the embedding -/

theorem toU64_natCast (n : Nat) (h : n < U64) : toU64 (n : Int) = n := by
  unfold U64 at h
  unfold toU64
  omega

theorem subU64_eq (a b : Nat) (hb : b ≤ a) (ha : a < U64) : subU64 a b = a - b := by
  unfold subU64
  unfold U64 at *
  omega

theorem play_duration_eq (n r : Nat) (h : 1000000 * n < U64) :
    play_duration n r = n * 1000000 / r := by
  unfold play_duration
  rw [Nat.mod_eq_of_lt h, Nat.mul_comm]

theorem goto_err_neg (l : List (Ev × Int)) (tr : List Ev) (ret : Int)
    (h : goto_err l = (tr, some ret)) : ret < 0 := by
  induction l generalizing tr with
  | nil => simp [goto_err] at h
  | cons c rest ih =>
    obtain ⟨e, r⟩ := c
    unfold goto_err at h
    split_ifs at h with hr
    · simp at h; obtain ⟨-, rfl⟩ := h; exact hr
    · simp only [Prod.mk.injEq] at h
      exact ih (goto_err rest).1 (Prod.ext rfl h.2)

/-! ## Traces of the playback loop -/

theorem resume_loop_no_usleep (K : Consts) (rs : List Int) (e : Int) (tr : List Ev)
    (h : resume_loop K rs = some (e, tr)) (u : Nat) : Ev.usleep u ∉ tr := by
  induction rs generalizing e tr with
  | nil => simp [resume_loop] at h
  | cons r rs ih =>
    unfold resume_loop at h
    split_ifs at h with hr
    · cases hq : resume_loop K rs with
      | none => simp [hq] at h
      | some p =>
        obtain ⟨e1, tr1⟩ := p
        simp [hq] at h
        obtain ⟨-, rfl⟩ := h
        have := ih e1 tr1 hq
        simp [this]
    · simp at h
      obtain ⟨-, rfl⟩ := h
      simp

theorem audio_play_xrun_no_usleep (K : Consts) (err : Int) (env : XrunEnv) (r : Int)
    (tr : List Ev) (h : audio_play_xrun K err env = some (r, tr)) (u : Nat) :
    Ev.usleep u ∉ tr := by
  unfold audio_play_xrun at h
  simp only at h
  by_cases h1 : err = -K.EPIPE
  · simp only [h1, if_true] at h
    by_cases hp : env.prepare < 0 <;> simp [hp] at h <;> (obtain ⟨-, rfl⟩ := h; simp)
  · simp only [h1, if_false] at h
    by_cases h2 : err = -K.ESTRPIPE
    · simp only [h2, if_true] at h
      cases hq : resume_loop K env.resume with
      | none => simp [hq] at h
      | some p =>
        obtain ⟨e1, tr1⟩ := p
        have hn := resume_loop_no_usleep K env.resume e1 tr1 hq u
        simp only [hq] at h
        by_cases he : e1 < 0
        · simp only [he, if_true] at h
          by_cases hp : env.prepare < 0 <;> simp [hp] at h <;>
            (obtain ⟨-, rfl⟩ := h; simp [hn])
        · simp [he] at h
          obtain ⟨-, rfl⟩ := h
          simp [hn]
    · simp [h2] at h
      obtain ⟨-, rfl⟩ := h
      simp

theorem play_write_no_usleep (K : Consts) (env : PlayEnv) (frames : Nat) (ap : audio_play_s)
    (rem : Nat) (ap1 : audio_play_s) (w : Ev) (h : play_write K env frames ap rem = some (ap1, w))
    (u : Nat) : w ≠ Ev.usleep u := by
  unfold play_write at h
  split_ifs at h with h1 h2
  · simp at h; obtain ⟨-, rfl⟩ := h; simp
  · simp at h; obtain ⟨-, rfl⟩ := h; simp
  · cases hb : ap.bufs with
    | none => simp [hb] at h
    | some old =>
      simp only [hb] at h
      split_ifs at h
      simp at h; obtain ⟨-, rfl⟩ := h; simp

theorem play_loop_no_usleep (K : Consts) (env : PlayEnv) (frames duration : Nat)
    (steps : List WriteStep) (ap : audio_play_s) (rem : Nat) (r : Int) (ap1 : audio_play_s)
    (tr : List Ev) (h : play_loop K env frames duration ap rem steps = some (r, ap1, tr))
    (u : Nat) : Ev.usleep u ∉ tr := by
  induction steps generalizing ap rem r ap1 tr with
  | nil =>
    unfold play_loop at h
    split_ifs at h
    simp at h; obtain ⟨-, -, rfl⟩ := h; simp
  | cons s rest ih =>
    unfold play_loop at h
    split_ifs at h with h0
    · simp at h; obtain ⟨-, -, rfl⟩ := h; simp
    · cases hw : play_write K env frames ap rem with
      | none => simp [hw] at h
      | some p =>
        obtain ⟨ap2, w⟩ := p
        have hwn := play_write_no_usleep K env frames ap rem ap2 w hw u
        simp only [hw] at h
        split_ifs at h with h1 h2 h3
        · simp at h; obtain ⟨-, -, rfl⟩ := h; simpa using hwn.symm
        · simp at h; obtain ⟨-, -, rfl⟩ := h; simpa using hwn.symm
        · cases hx : audio_play_xrun K s.ret s.xrun with
          | none => simp [hx] at h
          | some q =>
            obtain ⟨r1, tr1⟩ := q
            have hxn := audio_play_xrun_no_usleep K s.ret s.xrun r1 tr1 hx u
            simp only [hx] at h
            split_ifs at h with h4
            · simp at h; obtain ⟨-, -, rfl⟩ := h
              simp [hxn]; exact hwn.symm
            · cases hl : play_loop K env frames duration ap2 rem rest with
              | none => simp [hl] at h
              | some q2 =>
                obtain ⟨r2, ap3, tr2⟩ := q2
                have hln := ih ap2 rem r2 ap3 tr2 hl
                simp [hl] at h; obtain ⟨-, -, rfl⟩ := h
                simp [hxn, hln]; exact hwn.symm
        · cases hl : play_loop K env frames duration ap2 (subU64 rem (toU64 s.ret)) rest with
          | none => simp [hl] at h
          | some q2 =>
            obtain ⟨r2, ap3, tr2⟩ := q2
            have hln := ih ap2 _ r2 ap3 tr2 hl
            simp [hl] at h; obtain ⟨-, -, rfl⟩ := h
            simp [hln]; exact hwn.symm

/-! ## Playback: configuration -/

theorem audio_play_hw_ok (K : Consts) (ap : audio_play_s) (fmt_msg : AudioFormatMsg)
    (env : HwEnv) (ap1 : audio_play_s) (tr : List Ev) (ha : fmt_msg.audio = ap.audio_i)
    (h : audio_play_hw K ap fmt_msg env = (0, ap1, tr)) :
    ap1.pcm = some env.snd_pcm_open.2 ∧ ap1.rate = fmt_msg.rate ∧
      ap1.channels = fmt_msg.channels ∧ ap1.flags = fmt_msg.flags ∧
      ap1.silence_threshold = ap.silence_threshold ∧ ap1.audio_i = ap.audio_i := by
  unfold audio_play_hw at h
  rw [if_neg (by simpa using ha)] at h
  by_cases h1 : env.snd_pcm_open.1 < 0
  · simp only [h1, if_true, audio_play_hw_err, Prod.mk.injEq] at h
    omega
  · by_cases h2 : env.hw_params_malloc < 0
    · simp only [h1, h2, if_true, if_false, audio_play_hw_err, Prod.mk.injEq] at h
      omega
    · simp only [h1, h2, if_false] at h
      split at h
      · next tr1 ret hg =>
        have := goto_err_neg _ _ _ hg
        simp only [audio_play_hw_err, Prod.mk.injEq] at h
        omega
      · simp only [Prod.mk.injEq] at h
        obtain ⟨-, rfl, -⟩ := h
        simp

/-! ## Playback: scheduling of a data message -/

/-- C1 (as amended). A data message of the bound stream that reaches a
configured device (open handle, non-zero rate) with a timestamp earlier than
the clock reading is dropped, provided `time + silence_threshold + duration`
does not exceed the 64-bit range: `audio_play_play` returns 0, leaves the
engine unchanged and its only call is the "dropped packet" log, so neither
`snd_pcm_writei` nor `snd_pcm_writen` is issued. -/
theorem audio_play_play_drops_late (K : Consts) (ap : audio_play_s) (audio_hdr : AudioHdr)
    (env : PlayEnv) (hpcm : ap.pcm ≠ none) (hrate : ap.rate ≠ 0)
    (hid : audio_hdr.audio = ap.audio_i) (hlate : audio_hdr.timestamp < env.time)
    (hfit : env.time + ap.silence_threshold +
      play_duration (toU64 (env.bytes_to_frames audio_hdr.size)) ap.rate < U64) :
    audio_play_play K ap audio_hdr env =
      some (0, ap, [Ev.glc_log .GLC_WARNING "dropped packet"]) := by
  obtain ⟨p, hp⟩ := Option.ne_none_iff_exists'.mp hpcm
  unfold audio_play_play
  simp only [ne_eq, hid, not_true_eq_false, if_false, hp, hrate]
  rw [Nat.mod_eq_of_lt hfit]
  have h1 : ¬ (env.time + ap.silence_threshold +
      play_duration (toU64 (env.bytes_to_frames audio_hdr.size)) ap.rate
        < audio_hdr.timestamp) := by omega
  simp [h1, hlate]

/-- Witness of C1: a message 300 ms behind the clock on the configured stereo
device is dropped. -/
theorem audio_play_play_drops_late_witness :
    audio_play_play linux ex_play ⟨700000, 4096, 1⟩ (ex_env 1000000 [1024]) =
      some (0, ex_play, [Ev.glc_log .GLC_WARNING "dropped packet"]) :=
  audio_play_play_drops_late linux ex_play ⟨700000, 4096, 1⟩ (ex_env 1000000 [1024])
    (by decide) (by decide) (by decide) (by decide) (by decide)

/-- Counterexample to C1 as stated. With the clock at `2^64 - 1` the sum
`time + silence_threshold + duration` wraps around, so a message stamped
300001 us in the past is not dropped: the engine sleeps and then writes all
1024 frames. -/
theorem audio_play_play_late_rendered :
    (18446744073709251615 : Nat) < 18446744073709551615 ∧
    (18446744073709251615 : Nat) + 200000 < 18446744073709551615 ∧
    audio_play_play linux ex_play ⟨18446744073709251615, 4096, 1⟩
        (ex_env 18446744073709551615 [1024]) =
      some (0, ex_play,
        [Ev.usleep 4294645963, Ev.alsa .snd_pcm_wait [21333],
         Ev.alsa .snd_pcm_writei [0, 1024]]) := by
  decide
/-- C2 (as amended). For a data message of the bound stream on an open device
with rate `r > 0`, clock reading `t`, timestamp `ts` and `n` frames, let
`d = n * 1000000 / r`. Provided `1000000 * n` and `t + silence_threshold + d`
both stay within 64 bits and `ts - t - d` is below `2^32` (the range of the
parameter of `usleep`): when `t + silence_threshold + d < ts` the call is one
`usleep` that requests exactly `ts - t - d` microseconds (with `t + d <= ts`,
so the subtraction does not wrap) followed by the write loop; otherwise the
call is either the drop or the write loop alone; and the write loop never
sleeps. -/
theorem audio_play_play_sleep_rule (K : Consts) (ap : audio_play_s) (audio_hdr : AudioHdr)
    (env : PlayEnv) (n pcm : Nat) (hpcm : ap.pcm = some pcm) (hid : audio_hdr.audio = ap.audio_i)
    (hrate : 0 < ap.rate) (hn : toU64 (env.bytes_to_frames audio_hdr.size) = n)
    (hts : audio_hdr.timestamp < U64) (hmul : 1000000 * n < U64)
    (hfit : env.time + ap.silence_threshold + n * 1000000 / ap.rate < U64)
    (hsleep : audio_hdr.timestamp - env.time - n * 1000000 / ap.rate < 4294967296) :
    (env.time + ap.silence_threshold + n * 1000000 / ap.rate < audio_hdr.timestamp →
      env.time + n * 1000000 / ap.rate ≤ audio_hdr.timestamp ∧
      audio_play_play K ap audio_hdr env =
        (play_loop K env n (n * 1000000 / ap.rate) ap n env.writes).map
          (fun q => (q.1, q.2.1,
            Ev.usleep (audio_hdr.timestamp - env.time - n * 1000000 / ap.rate) :: q.2.2))) ∧
    (¬ env.time + ap.silence_threshold + n * 1000000 / ap.rate < audio_hdr.timestamp →
      audio_play_play K ap audio_hdr env =
        if env.time > audio_hdr.timestamp then
          some (0, ap, [Ev.glc_log .GLC_WARNING "dropped packet"])
        else play_loop K env n (n * 1000000 / ap.rate) ap n env.writes) ∧
    (∀ r ap1 tr, play_loop K env n (n * 1000000 / ap.rate) ap n env.writes = some (r, ap1, tr) →
      ∀ u, Ev.usleep u ∉ tr) := by
  have hr : ap.rate ≠ 0 := by omega
  have hd := play_duration_eq n ap.rate hmul
  refine ⟨fun hlt => ⟨by omega, ?_⟩, fun hge => ?_, fun r ap1 tr h u =>
    play_loop_no_usleep K env n _ env.writes ap n r ap1 tr h u⟩
  · unfold audio_play_play
    simp only [ne_eq, hid, not_true_eq_false, if_false, hpcm, hr, hn, hd]
    rw [Nat.mod_eq_of_lt hfit, if_pos hlt]
    have h1 : subU64 audio_hdr.timestamp env.time = audio_hdr.timestamp - env.time :=
      subU64_eq _ _ (by omega) hts
    have h2 : subU64 (audio_hdr.timestamp - env.time) (n * 1000000 / ap.rate) =
        audio_hdr.timestamp - env.time - n * 1000000 / ap.rate :=
      subU64_eq _ _ (by omega) (by omega)
    have h3 : toUseconds (audio_hdr.timestamp - env.time - n * 1000000 / ap.rate) =
        audio_hdr.timestamp - env.time - n * 1000000 / ap.rate := by
      unfold toUseconds
      exact Nat.mod_eq_of_lt hsleep
    rw [h1, h2, h3]
  · unfold audio_play_play
    simp only [ne_eq, hid, not_true_eq_false, if_false, hpcm, hr, hn, hd]
    rw [Nat.mod_eq_of_lt hfit, if_neg hge]

/-- Witness of C2: clock at 1 s, a 96-frame message stamped 1.3 s, 48000 Hz;
the duration is 2000 us and the engine sleeps 298000 us before the loop. -/
theorem audio_play_play_sleep_rule_witness :
    1000000 + 96 * 1000000 / 48000 ≤ 1300000 ∧
    audio_play_play linux ex_play ⟨1300000, 384, 1⟩ (ex_env 1000000 [96]) =
      (play_loop linux (ex_env 1000000 [96]) 96 (96 * 1000000 / 48000) ex_play 96
          (ex_env 1000000 [96]).writes).map
        (fun q => (q.1, q.2.1, Ev.usleep (1300000 - 1000000 - 96 * 1000000 / 48000) :: q.2.2)) :=
  (audio_play_play_sleep_rule linux ex_play ⟨1300000, 384, 1⟩ (ex_env 1000000 [96]) 96 7
    (by decide) (by decide) (by decide) (by decide) (by decide) (by decide) (by decide)
    (by decide)).1 (by decide)

/-- Counterexample to C2 as stated, at two inputs. First, a header declaring
73786976294840 bytes gives `n = 18446744073710` frames;
`n * 1000000 / 48000 = 384307168202`, so `t + silence_threshold + d` neither
overflows nor is below the timestamp 300000, yet the engine sleeps (for 299991
us): `1000000 * n` wrapped around in `unsigned long` and the duration the code
computed is 9. Second, with the clock at 1000000 and a 96-frame message
(`d = 2000`) stamped 4295969301, nothing overflows 64 bits and the engine
sleeps, but `ts - t - d = 4294967301` does not fit the 32-bit parameter of
`usleep`, which is asked for 5 us. -/
theorem audio_play_play_sleep_wrapped :
    (toU64 ((ex_env 0 [0]).bytes_to_frames 73786976294840) = 18446744073710 ∧
      0 + 200000 + 18446744073710 * 1000000 / 48000 < U64 ∧
      ¬ (0 + 200000 + 18446744073710 * 1000000 / 48000 < 300000) ∧
      audio_play_play linux ex_play ⟨300000, 73786976294840, 1⟩ (ex_env 0 [0]) =
        some (0, ex_play,
          [Ev.usleep 299991, Ev.alsa .snd_pcm_wait [9],
           Ev.alsa .snd_pcm_writei [0, 18446744073710]])) ∧
    (toU64 ((ex_env 1000000 [96]).bytes_to_frames 384) = 96 ∧
      1000000 * 96 < U64 ∧
      1000000 + 200000 + 96 * 1000000 / 48000 < U64 ∧
      1000000 + 200000 + 96 * 1000000 / 48000 < 4295969301 ∧
      4295969301 - 1000000 - 96 * 1000000 / 48000 = 4294967301 ∧
      audio_play_play linux ex_play ⟨4295969301, 384, 1⟩ (ex_env 1000000 [96]) =
        some (0, ex_play,
          [Ev.usleep 5, Ev.alsa .snd_pcm_wait [2000], Ev.alsa .snd_pcm_writei [0, 96]])) := by
  decide

/-- C3 (as amended). With the default silence threshold, once a format
descriptor (48000 Hz, 2 channels, interleaved) of the bound stream has
configured the device, a data message of that stream stamped 5000 us after the
clock reading is rendered at once: `audio_play_play` is exactly its write loop,
with no `usleep` before or during it (5 ms of lead is inside the 200 ms
threshold). -/
theorem audio_play_play_5ms_ahead (K : Consts) (fmt_msg : AudioFormatMsg) (henv : HwEnv)
    (ap : audio_play_s) (tr0 : List Ev) (audio_hdr : AudioHdr) (env : PlayEnv)
    (hfid : fmt_msg.audio = audio_play_init.audio_i) (hfrate : fmt_msg.rate = 48000)
    (hfch : fmt_msg.channels = 2) (hfil : fmt_msg.flags &&& K.GLC_AUDIO_INTERLEAVED ≠ 0)
    (hhw : audio_play_hw K audio_play_init fmt_msg henv = (0, ap, tr0))
    (hid : audio_hdr.audio = audio_play_init.audio_i)
    (hts : audio_hdr.timestamp = env.time + 5000)
    (hfit : env.time + 200000 +
      play_duration (toU64 (env.bytes_to_frames audio_hdr.size)) 48000 < U64) :
    ap.silence_threshold = 200000 ∧ ap.rate = 48000 ∧ ap.channels = 2 ∧
    ap.flags &&& K.GLC_AUDIO_INTERLEAVED ≠ 0 ∧
    audio_play_play K ap audio_hdr env =
      play_loop K env (toU64 (env.bytes_to_frames audio_hdr.size))
        (play_duration (toU64 (env.bytes_to_frames audio_hdr.size)) 48000) ap
        (toU64 (env.bytes_to_frames audio_hdr.size)) env.writes ∧
    (∀ r ap1 tr, audio_play_play K ap audio_hdr env = some (r, ap1, tr) →
      ∀ u, Ev.usleep u ∉ tr) := by
  obtain ⟨hp, hr, hch, hfl, hth, hai⟩ := audio_play_hw_ok K _ _ _ _ _ hfid hhw
  have hth2 : ap.silence_threshold = 200000 := by rw [hth]; rfl
  have hr2 : ap.rate = 48000 := by rw [hr, hfrate]
  have heq : audio_play_play K ap audio_hdr env =
      play_loop K env (toU64 (env.bytes_to_frames audio_hdr.size))
        (play_duration (toU64 (env.bytes_to_frames audio_hdr.size)) 48000) ap
        (toU64 (env.bytes_to_frames audio_hdr.size)) env.writes := by
    unfold audio_play_play
    have hid2 : audio_hdr.audio = ap.audio_i := by rw [hai, hid]
    simp only [ne_eq, hid2, not_true_eq_false, if_false, hp, hr2, hth2]
    rw [Nat.mod_eq_of_lt hfit]
    have h1 : ¬ (env.time + 200000 +
        play_duration (toU64 (env.bytes_to_frames audio_hdr.size)) 48000
          < audio_hdr.timestamp) := by omega
    have h2 : ¬ (env.time > audio_hdr.timestamp) := by omega
    simp [h1, h2]
  refine ⟨hth2, hr2, by rw [hch, hfch], by rw [hfl]; exact hfil, heq, fun r ap1 tr h u => ?_⟩
  rw [heq] at h
  exact play_loop_no_usleep K env _ _ env.writes ap _ r ap1 tr h u

/-- Witness of C3: the descriptor configures the device, and the message
stamped 5 ms ahead goes straight to the write loop. -/
theorem audio_play_play_5ms_ahead_witness :
    audio_play_play linux (audio_play_hw linux audio_play_init ex_fmt ex_hw).2.1
        ⟨1005000, 384, 1⟩ (ex_env 1000000 [96]) =
      play_loop linux (ex_env 1000000 [96])
        (toU64 ((ex_env 1000000 [96]).bytes_to_frames 384))
        (play_duration (toU64 ((ex_env 1000000 [96]).bytes_to_frames 384)) 48000)
        (audio_play_hw linux audio_play_init ex_fmt ex_hw).2.1
        (toU64 ((ex_env 1000000 [96]).bytes_to_frames 384)) (ex_env 1000000 [96]).writes :=
  (audio_play_play_5ms_ahead linux ex_fmt ex_hw
    (audio_play_hw linux audio_play_init ex_fmt ex_hw).2.1
    (audio_play_hw linux audio_play_init ex_fmt ex_hw).2.2
    ⟨1005000, 384, 1⟩ (ex_env 1000000 [96])
    (by decide) (by decide) (by decide) (by decide) (by decide) (by decide) (by decide)
    (by decide)).2.2.2.2.1

/-- Counterexample to C3 as stated. After the descriptor (48000 Hz, stereo,
interleaved), a 96-frame message (duration 2000 us) stamped 5000 us ahead of
the clock is written immediately: the first calls are `snd_pcm_wait` and
`snd_pcm_writei` of all 96 frames, and no `usleep` of 3000 us (or of any
length) is issued. -/
theorem render_5ms_ahead_without_sleep :
    (audio_play_hw linux audio_play_init ex_fmt ex_hw).1 = 0 ∧
    audio_play_play linux (audio_play_hw linux audio_play_init ex_fmt ex_hw).2.1
        ⟨1005000, 384, 1⟩ (ex_env 1000000 [96]) =
      some (0, ex_play,
        [Ev.alsa .snd_pcm_wait [2000], Ev.alsa .snd_pcm_writei [0, 96]]) := by
  decide

/-! ## Playback: messages of other streams -/

/-- C4. A message whose stream id differs from the one the engine is bound to,
whether a format descriptor or audio data, and any message of another kind,
makes `audio_play_read_callback` return 0 with the engine state unchanged and
no external call at all (empty trace: no close, open, sleep or write). -/
theorem audio_play_read_callback_other_stream (K : Consts) (ap : audio_play_s)
    (state : glc_thread_state) (env : CallbackEnv)
    (hfmt : state.type = K.GLC_MESSAGE_AUDIO_FORMAT → state.as_format.audio ≠ ap.audio_i)
    (hdata : state.type = K.GLC_MESSAGE_AUDIO → state.as_audio.audio ≠ ap.audio_i) :
    audio_play_read_callback K ap state env = some (0, ap, []) := by
  unfold audio_play_read_callback
  by_cases h1 : state.type = K.GLC_MESSAGE_AUDIO_FORMAT
  · have := hfmt h1
    simp [h1, audio_play_hw, this]
  · by_cases h2 : state.type = K.GLC_MESSAGE_AUDIO
    · have := hdata h2
      rw [if_neg h1, if_pos h2]
      simp [audio_play_play, this]
    · rw [if_neg h1, if_neg h2]

/-- Witness of C4: the configured engine bound to stream 1 receives a format
descriptor of stream 2. -/
theorem audio_play_read_callback_other_stream_witness :
    audio_play_read_callback linux ex_play ⟨5, ⟨2, 5, 44100, 1⟩, ⟨0, 0, 2⟩⟩
        ⟨ex_hw, ex_env 0 []⟩ = some (0, ex_play, []) :=
  audio_play_read_callback_other_stream linux ex_play ⟨5, ⟨2, 5, 44100, 1⟩, ⟨0, 0, 2⟩⟩
    ⟨ex_hw, ex_env 0 []⟩ (by decide) (by decide)

/-! ## Capture: opening the device -/

theorem audio_capture_open_announce_fields (K : Consts) (ac : audio_capture_s) (env : OpenEnv)
    (ret : Int) (ac1 : audio_capture_s) (tr : List Ev)
    (h : audio_capture_open_announce K ac env = some (ret, ac1, tr)) :
    ac1.pcm = ac.pcm ∧ ac1.skip_data = ac.skip_data ∧ ac1.rate = ac.rate ∧
      ac1.rate_usec = ac.rate_usec := by
  unfold audio_capture_open_announce at h
  split_ifs at h
  simp only [Option.some.injEq, Prod.mk.injEq] at h
  obtain ⟨-, rfl, -⟩ := h
  exact ⟨rfl, rfl, rfl, rfl⟩

theorem audio_capture_open_settings_fields (K : Consts) (ac : audio_capture_s) (env : OpenEnv)
    (ret : Int) (ac1 : audio_capture_s) (tr : List Ev)
    (h : audio_capture_open_settings K ac env = some (ret, ac1, tr)) :
    ac1.pcm = ac.pcm ∧ ac1.skip_data = ac.skip_data ∧
    (ret = 0 → ac1.rate ≠ 0 ∧ ac1.rate_usec = ((1000000 / ac1.rate : Nat) : Int)) := by
  unfold audio_capture_open_settings at h
  dsimp only at h
  by_cases h0 : 0 ≤ env.get_period_size.1
  · simp only [h0, if_true] at h
    split_ifs at h with h1 h2 h3 h4 h5 h6
    · simp only [Option.some.injEq, Prod.mk.injEq, audio_capture_open_err] at h
      obtain ⟨hr, rfl, -⟩ := h
      exact ⟨rfl, rfl, fun hz => by omega⟩
    · simp only [Option.some.injEq, Prod.mk.injEq, audio_capture_open_err] at h
      obtain ⟨hr, rfl, -⟩ := h
      exact ⟨rfl, rfl, fun hz => by omega⟩
    · simp only [Option.some.injEq, Prod.mk.injEq, audio_capture_open_err] at h
      obtain ⟨hr, rfl, -⟩ := h
      exact ⟨rfl, rfl, fun hz => by omega⟩
    · simp only [Option.some.injEq, Prod.mk.injEq, audio_capture_open_err] at h
      obtain ⟨hr, rfl, -⟩ := h
      exact ⟨rfl, rfl, fun hz => by omega⟩
    · simp only [Option.some.injEq, Prod.mk.injEq] at h
      obtain ⟨hr, rfl, -⟩ := h
      exact ⟨rfl, rfl, fun _ => ⟨h5, rfl⟩⟩
    · obtain ⟨q, ha, hq⟩ := Option.map_eq_some'.mp h
      obtain ⟨r2, ac2, tr2⟩ := q
      obtain ⟨a1, a2, a3, a4⟩ := audio_capture_open_announce_fields K _ env r2 ac2 tr2 ha
      simp only [Prod.mk.injEq] at hq
      obtain ⟨-, rfl, -⟩ := hq
      refine ⟨a1, a2, fun _ => ⟨?_, ?_⟩⟩
      · rw [a3]; exact h5
      · rw [a4, a3]
  · have h1 : env.get_period_size.1 ≠ 0 := by omega
    simp only [h0, if_false, h1, ne_eq, not_false_eq_true, if_true, Option.some.injEq,
      Prod.mk.injEq, audio_capture_open_err] at h
    obtain ⟨hr, rfl, -⟩ := h
    exact ⟨rfl, rfl, fun hz => by omega⟩

theorem audio_capture_open_fields (K : Consts) (ac : audio_capture_s) (env : OpenEnv)
    (ret : Int) (ac1 : audio_capture_s) (tr : List Ev)
    (h : audio_capture_open K ac env = some (ret, ac1, tr)) :
    ac1.skip_data = ac.skip_data ∧
    (ret = 0 → ac1.pcm = some env.hw.snd_pcm_open.2 ∧ ac1.rate ≠ 0 ∧
      ac1.rate_usec = ((1000000 / ac1.rate : Nat) : Int)) := by
  unfold audio_capture_open at h
  dsimp only at h
  split_ifs at h with h1 h2 h3 h4 h5
  · simp only [Option.some.injEq, Prod.mk.injEq, audio_capture_open_err] at h
    obtain ⟨hr, rfl, -⟩ := h
    exact ⟨rfl, fun hz => by omega⟩
  · simp only [Option.some.injEq, Prod.mk.injEq, audio_capture_open_err] at h
    obtain ⟨hr, rfl, -⟩ := h
    exact ⟨rfl, fun hz => by omega⟩
  · simp only [Option.some.injEq, Prod.mk.injEq, audio_capture_open_err] at h
    obtain ⟨hr, rfl, -⟩ := h
    exact ⟨rfl, fun hz => by omega⟩
  · simp only [Option.some.injEq, Prod.mk.injEq, audio_capture_open_err] at h
    obtain ⟨hr, rfl, -⟩ := h
    exact ⟨rfl, fun hz => by omega⟩
  · simp only [Option.some.injEq, Prod.mk.injEq, audio_capture_open_err] at h
    obtain ⟨hr, rfl, -⟩ := h
    exact ⟨rfl, fun hz => by omega⟩
  · cases hs : audio_capture_open_settings K { ac with pcm := some env.hw.snd_pcm_open.2 } env with
    | none => simp [hs] at h
    | some q =>
      obtain ⟨r2, ac2, tr2⟩ := q
      simp only [hs, Option.map_some', Option.some.injEq, Prod.mk.injEq] at h
      obtain ⟨rfl, rfl, -⟩ := h
      obtain ⟨b1, b2, b3⟩ := audio_capture_open_settings_fields K _ env _ _ _ hs
      exact ⟨b2, fun hz => ⟨b1, b3 hz⟩⟩

theorem audio_capture_start_ok (K : Consts) (ac0 ac1 : audio_capture_s) (env : OpenEnv)
    (tr : List Ev) (h : audio_capture_start K (some ac0) env = some (0, some ac1, tr)) :
    ac1.pcm ≠ none ∧ ac1.skip_data = 0 ∧
    (ac0.pcm = none → ac1.rate ≠ 0 ∧ ac1.rate_usec = ((1000000 / ac1.rate : Nat) : Int)) := by
  unfold audio_capture_start at h
  dsimp only at h
  cases hp : ac0.pcm with
  | some p =>
    simp only [hp, Option.some.injEq, Prod.mk.injEq, true_and] at h
    obtain ⟨rfl, -⟩ := h
    simp [hp]
  | none =>
    simp only [hp] at h
    cases ho : audio_capture_open K ac0 env with
    | none => simp [ho] at h
    | some q =>
      obtain ⟨r2, ac2, tr2⟩ := q
      simp only [ho] at h
      obtain ⟨c1, c2⟩ := audio_capture_open_fields K ac0 env r2 ac2 tr2 ho
      by_cases hr : r2 = 0
      · simp only [hr, ne_eq, not_true_eq_false, if_false, Option.some.injEq, Prod.mk.injEq,
          true_and] at h
        obtain ⟨rfl, -⟩ := h
        obtain ⟨d1, d2, d3⟩ := c2 hr
        simp [d1, d2, d3]
      · rw [if_pos hr] at h
        simp only [Option.some.injEq, Prod.mk.injEq] at h
        exact absurd h.1 hr

/-! ## Capture: start and stop -/

/-- C7. After a successful `audio_capture_start`, `audio_capture_stop` returns
0, keeps the (non-null) device handle and every negotiated setting, sets
`skip_data = 1` and makes no call but its log entry; the following
`audio_capture_start` returns 0 whatever the device would answer, restores
exactly the state the first start left (`skip_data = 0`; handle, period size,
rate, channels and format unchanged), and its trace is a single log entry: no
`audio_capture_open`, hence no negotiation and no second format message. -/
theorem audio_capture_start_stop_start (K : Consts) (ac0 ac1 : audio_capture_s)
    (env0 env1 : OpenEnv) (tr0 : List Ev)
    (h : audio_capture_start K (some ac0) env0 = some (0, some ac1, tr0)) :
    ac1.pcm ≠ none ∧ ac1.skip_data = 0 ∧
    (∃ lvl text, audio_capture_stop K (some ac1) =
      (0, some { ac1 with skip_data := 1 }, [Ev.glc_log lvl text])) ∧
    (∃ lvl text, audio_capture_start K ((audio_capture_stop K (some ac1)).2.1) env1 =
      some (0, some ac1, [Ev.glc_log lvl text])) := by
  obtain ⟨hp, hs, -⟩ := audio_capture_start_ok K ac0 ac1 env0 tr0 h
  obtain ⟨p, hp1⟩ := Option.ne_none_iff_exists'.mp hp
  refine ⟨hp, hs,
    ⟨.GLC_WARNING, "device %s already stopped", by simp [audio_capture_stop, hs]⟩, ?_⟩
  refine ⟨.GLC_WARNING, "device %s already started", ?_⟩
  simp only [audio_capture_stop, audio_capture_start, hp1]
  cases ac1
  simp_all

/-- Witness of C7: the first start opens the device of `ex_open`. -/
theorem audio_capture_start_stop_start_witness :
    ex_capture.pcm ≠ none ∧ ex_capture.skip_data = 0 ∧
    (∃ lvl text, audio_capture_stop linux (some ex_capture) =
      (0, some { ex_capture with skip_data := 1 }, [Ev.glc_log lvl text])) ∧
    (∃ lvl text, audio_capture_start linux ((audio_capture_stop linux (some ex_capture)).2.1)
        ex_open = some (0, some ex_capture, [Ev.glc_log lvl text])) :=
  audio_capture_start_stop_start linux (audio_capture_init 1) ex_capture ex_open ex_open
    ((audio_capture_start linux (some (audio_capture_init 1)) ex_open).getD (0, none, [])).2.2
    (by decide)

/-- C8, evaluated. On a freshly initialised engine (stopped, `skip_data = 1`)
`audio_capture_start` opens the device and logs the warning "already
started"; `audio_capture_stop` on the capturing engine (`skip_data = 0`) logs
the warning "already stopped"; the redundant calls (start while capturing,
stop while stopped) log only the informational entries. The test on
`skip_data` is inverted in both functions. -/
theorem audio_capture_start_stop_log_levels :
    (audio_capture_init 1).skip_data = 1 ∧
    (audio_capture_start linux (some (audio_capture_init 1)) ex_open).map
        (fun r => (r.1, r.2.2.head?)) =
      some (0, some (Ev.glc_log .GLC_WARNING "device %s already started")) ∧
    ex_capture.skip_data = 0 ∧
    audio_capture_stop linux (some ex_capture) =
      (0, some { ex_capture with skip_data := 1 },
        [Ev.glc_log .GLC_WARNING "device %s already stopped"]) ∧
    audio_capture_start linux (some ex_capture) ex_open =
      some (0, some ex_capture, [Ev.glc_log .GLC_INFORMATION "starting device %s"]) ∧
    audio_capture_stop linux (some { ex_capture with skip_data := 1 }) =
      (0, some { ex_capture with skip_data := 1 },
        [Ev.glc_log .GLC_INFORMATION "stopping device %s"]) := by
  decide

/-! ## Capture: one period of the worker -/

theorem resume_loop_no_write (K : Consts) (rs : List Int) (e : Int) (tr : List Ev)
    (h : resume_loop K rs = some (e, tr)) (d : Wire) (sz : Nat) :
    Ev.ps_packet_write d sz ∉ tr := by
  induction rs generalizing e tr with
  | nil => simp [resume_loop] at h
  | cons r rs ih =>
    unfold resume_loop at h
    split_ifs at h with hr
    · cases hq : resume_loop K rs with
      | none => simp [hq] at h
      | some p =>
        obtain ⟨e1, tr1⟩ := p
        simp [hq] at h
        obtain ⟨-, rfl⟩ := h
        have := ih e1 tr1 hq
        simp [this]
    · simp at h
      obtain ⟨-, rfl⟩ := h
      simp

theorem audio_capture_xrun_no_write (K : Consts) (err : Int) (env : XrunEnv) (r : Int)
    (tr : List Ev) (h : audio_capture_xrun K err env = some (r, tr)) (d : Wire) (sz : Nat) :
    Ev.ps_packet_write d sz ∉ tr := by
  unfold audio_capture_xrun at h
  by_cases h1 : err = -K.EPIPE
  · simp only [h1, if_true] at h
    split_ifs at h <;> (simp at h; obtain ⟨-, rfl⟩ := h; simp)
  · simp only [h1, if_false] at h
    by_cases h2 : err = -K.ESTRPIPE
    · simp only [h2, if_true] at h
      cases hq : resume_loop K env.resume with
      | none => simp [hq] at h
      | some p =>
        obtain ⟨e1, tr1⟩ := p
        have hn := resume_loop_no_write K env.resume e1 tr1 hq d sz
        simp only [hq] at h
        split_ifs at h <;> (simp at h; obtain ⟨-, rfl⟩ := h; simp [hn])
    · simp [h2] at h
      obtain ⟨-, rfl⟩ := h
      simp

theorem capture_cancel_write (K : Consts) (env : PeriodEnv) (avail ret : Int) (tr : List Ev)
    (d : Wire) (sz : Nat) (h : Ev.ps_packet_write d sz ∈ (capture_cancel K env avail ret tr).2) :
    Ev.ps_packet_write d sz ∈ tr := by
  unfold capture_cancel at h
  split_ifs at h <;> simpa using h

theorem capture_read_no_write (K : Consts) (ac : audio_capture_s) (env : PeriodEnv) (read : Int)
    (rd : List Ev) (h : capture_read K ac env = some (read, rd)) (d : Wire) (sz : Nat) :
    Ev.ps_packet_write d sz ∉ rd := by
  unfold capture_read at h
  split_ifs at h
  · cases hx : audio_capture_xrun K env.readi env.read_xrun with
    | none => simp [hx] at h
    | some p =>
      obtain ⟨r1, tr1⟩ := p
      have hn := audio_capture_xrun_no_write K _ _ r1 tr1 hx d sz
      simp [hx] at h
      obtain ⟨-, rfl⟩ := h
      simp [hn]
  · simp at h
    obtain ⟨-, rfl⟩ := h
    simp

theorem capture_read_log_no_write (ac : audio_capture_s) (read : Int) (d : Wire) (sz : Nat) :
    Ev.ps_packet_write d sz ∉ capture_read_log ac read := by
  unfold capture_read_log
  split_ifs <;> simp

theorem capture_commit_write (K : Consts) (ac : audio_capture_s) (env : PeriodEnv)
    (avail read : Int) (tr : List Ev) (ctl : LoopCtl) (tr1 : List Ev)
    (h : capture_commit K ac env avail read tr = some (ctl, tr1)) (d : Wire) (sz : Nat)
    (hm : Ev.ps_packet_write d sz ∈ tr1) : Ev.ps_packet_write d sz ∈ tr := by
  unfold capture_commit at h
  dsimp only at h
  split_ifs at h with h1 h2 h3
  · simp only [Option.some.injEq] at h
    have hc := capture_cancel_write K env avail _ _ d sz (by rw [h]; exact hm)
    simpa using hc
  · simp only [Option.some.injEq] at h
    have hc := capture_cancel_write K env avail _ _ d sz (by rw [h]; exact hm)
    simpa using hc
  · cases hx : audio_capture_xrun K env.delay.1 env.delay_xrun with
    | none => simp [hx] at h
    | some p =>
      obtain ⟨r1, trx⟩ := p
      have hn := audio_capture_xrun_no_write K _ _ r1 trx hx d sz
      simp only [hx, Option.map_some', Option.some.injEq, Prod.mk.injEq] at h
      obtain ⟨-, rfl⟩ := h
      simpa [hn] using hm
  · simp only [Option.some.injEq, Prod.mk.injEq] at h
    obtain ⟨-, rfl⟩ := h
    simpa using hm

theorem capture_period_hdr (K : Consts) (ac : audio_capture_s) (env : PeriodEnv) (ctl : LoopCtl)
    (tr : List Ev) (h : capture_period K ac env = some (ctl, tr)) (hdr : AudioHdr) (sz : Nat)
    (hm : Ev.ps_packet_write (.audio_hdr hdr) sz ∈ tr) :
    hdr = capture_hdr ac env.time env.avail_update := by
  unfold capture_period at h
  dsimp only at h
  split_ifs at h with h1 h2 h3 h4 h5 h6
  · simp at h; obtain ⟨-, rfl⟩ := h; simp at hm
  · simp at h; obtain ⟨-, rfl⟩ := h; simp at hm
  · simp only [Option.some.injEq] at h
    have hc := capture_cancel_write K env _ _ _ _ sz (by rw [h]; exact hm)
    simp at hc
  · simp only [Option.some.injEq] at h
    have hc := capture_cancel_write K env _ _ _ _ sz (by rw [h]; exact hm)
    simp at hc
  · simp only [Option.some.injEq] at h
    have hc := capture_cancel_write K env _ _ _ _ sz (by rw [h]; exact hm)
    simp at hc
    exact hc.1
  · simp only [Option.some.injEq] at h
    have hc := capture_cancel_write K env _ _ _ _ sz (by rw [h]; exact hm)
    simp at hc
    exact hc.1
  · cases hr : capture_read K ac env with
    | none => simp [hr] at h
    | some p =>
      obtain ⟨read, rd⟩ := p
      have hn := capture_read_no_write K ac env read rd hr (.audio_hdr hdr) sz
      simp only [hr] at h
      have hl := capture_read_log_no_write ac read (.audio_hdr hdr) sz
      have hc := capture_commit_write K ac env _ _ _ ctl tr h _ sz hm
      simp [hn, hl] at hc
      exact hc.1

theorem capture_cancel_keeps (K : Consts) (env : PeriodEnv) (avail ret : Int) (tr : List Ev)
    (e : Ev) (h : e ∈ tr) : e ∈ (capture_cancel K env avail ret tr).2 := by
  unfold capture_cancel
  split_ifs <;> simp [h]

theorem capture_commit_keeps (K : Consts) (ac : audio_capture_s) (env : PeriodEnv)
    (avail read : Int) (tr : List Ev) (ctl : LoopCtl) (tr1 : List Ev)
    (h : capture_commit K ac env avail read tr = some (ctl, tr1)) (e : Ev) (hm : e ∈ tr) :
    e ∈ tr1 := by
  unfold capture_commit at h
  dsimp only at h
  split_ifs at h with h1 h2 h3
  · simp only [Option.some.injEq] at h
    have ht := congrArg Prod.snd h
    dsimp only at ht
    rw [← ht]
    exact capture_cancel_keeps K env avail _ _ e (by simp [hm])
  · simp only [Option.some.injEq] at h
    have ht := congrArg Prod.snd h
    dsimp only at ht
    rw [← ht]
    exact capture_cancel_keeps K env avail _ _ e (by simp [hm])
  · cases hx : audio_capture_xrun K env.delay.1 env.delay_xrun with
    | none => simp [hx] at h
    | some p =>
      simp only [hx, Option.map_some', Option.some.injEq, Prod.mk.injEq] at h
      obtain ⟨-, rfl⟩ := h
      simp [hm]
  · simp only [Option.some.injEq, Prod.mk.injEq] at h
    obtain ⟨-, rfl⟩ := h
    simp [hm]

theorem capture_period_headed (K : Consts) (ac : audio_capture_s) (env : PeriodEnv)
    (ctl : LoopCtl) (tr : List Ev) (h : capture_period K ac env = some (ctl, tr))
    (hper : ¬ toU64 env.avail_update < ac.period_size) (hskip : ac.skip_data = 0)
    (ho : env.ps_packet_open = 0) (hw : env.ps_packet_write_msg = 0) :
    Ev.ps_packet_write (.audio_hdr (capture_hdr ac env.time env.avail_update))
      K.GLC_AUDIO_HEADER_SIZE ∈ tr := by
  unfold capture_period at h
  dsimp only at h
  rw [if_neg hper, if_neg (not_not.mpr hskip), if_neg (not_not.mpr ho),
    if_neg (not_not.mpr hw)] at h
  split_ifs at h with h5 h6
  · simp only [Option.some.injEq] at h
    have ht := congrArg Prod.snd h
    dsimp only at ht
    rw [← ht]
    exact capture_cancel_keeps K env _ _ _ _ (by simp)
  · simp only [Option.some.injEq] at h
    have ht := congrArg Prod.snd h
    dsimp only at ht
    rw [← ht]
    exact capture_cancel_keeps K env _ _ _ _ (by simp)
  · cases hr : capture_read K ac env with
    | none => simp [hr] at h
    | some p =>
      obtain ⟨read, rd⟩ := p
      simp only [hr] at h
      exact capture_commit_keeps K ac env _ _ _ ctl tr h _ (by simp)

theorem resume_loop_returns (K : Consts) (rs : List Int) (h : ∃ r ∈ rs, r ≠ -K.EAGAIN) :
    ∃ q, resume_loop K rs = some q := by
  induction rs with
  | nil =>
    obtain ⟨r, hr, -⟩ := h
    simp at hr
  | cons x rs ih =>
    unfold resume_loop
    by_cases hx : x = -K.EAGAIN
    · rw [if_pos hx]
      obtain ⟨r, hr, hne⟩ := h
      rcases List.mem_cons.mp hr with rfl | hr
      · exact absurd hx hne
      · obtain ⟨q, hq⟩ := ih ⟨r, hr, hne⟩
        exact ⟨_, by rw [hq]; rfl⟩
    · rw [if_neg hx]
      exact ⟨_, rfl⟩

theorem audio_capture_xrun_returns (K : Consts) (err : Int) (env : XrunEnv)
    (h : err = -K.ESTRPIPE → recovers K env) : ∃ q, audio_capture_xrun K err env = some q := by
  unfold audio_capture_xrun
  by_cases h1 : err = -K.EPIPE
  · rw [if_pos h1]
    split_ifs <;> exact ⟨_, rfl⟩
  · rw [if_neg h1]
    by_cases h2 : err = -K.ESTRPIPE
    · rw [if_pos h2]
      obtain ⟨q, hq⟩ := resume_loop_returns K env.resume (h h2)
      obtain ⟨e, tr⟩ := q
      rw [hq]
      dsimp only
      split_ifs <;> exact ⟨_, rfl⟩
    · rw [if_neg h2]
      exact ⟨_, rfl⟩

theorem capture_commit_returns (K : Consts) (ac : audio_capture_s) (env : PeriodEnv)
    (avail read : Int) (tr : List Ev)
    (h : env.delay.1 = -K.ESTRPIPE → recovers K env.delay_xrun) :
    ∃ q, capture_commit K ac env avail read tr = some q := by
  unfold capture_commit
  dsimp only
  split_ifs
  · exact ⟨_, rfl⟩
  · exact ⟨_, rfl⟩
  · obtain ⟨q, hq⟩ := audio_capture_xrun_returns K env.delay.1 env.delay_xrun h
    exact ⟨_, by rw [hq]; rfl⟩
  · exact ⟨_, rfl⟩

theorem capture_period_returns (K : Consts) (ac : audio_capture_s) (env : PeriodEnv)
    (hread : env.readi = -K.ESTRPIPE → recovers K env.read_xrun)
    (hdelay : env.delay.1 = -K.ESTRPIPE → recovers K env.delay_xrun) :
    ∃ ctl tr, capture_period K ac env = some (ctl, tr) := by
  have hq : ∀ q : Option (LoopCtl × List Ev), (∃ p, q = some p) → ∃ ctl tr, q = some (ctl, tr) :=
    fun q ⟨p, hp⟩ => ⟨p.1, p.2, hp⟩
  apply hq
  unfold capture_period
  dsimp only
  split_ifs
  · exact ⟨_, rfl⟩
  · exact ⟨_, rfl⟩
  · exact ⟨_, rfl⟩
  · exact ⟨_, rfl⟩
  · exact ⟨_, rfl⟩
  · exact ⟨_, rfl⟩
  · have hrd : ∃ p, capture_read K ac env = some p := by
      unfold capture_read
      split_ifs
      · obtain ⟨p, hp⟩ := audio_capture_xrun_returns K env.readi env.read_xrun hread
        exact ⟨_, by rw [hp]; rfl⟩
      · exact ⟨_, rfl⟩
    obtain ⟨p, hp⟩ := hrd
    obtain ⟨read, rd⟩ := p
    rw [hp]
    exact capture_commit_returns K ac env _ _ _ hdelay

/-- C5, evaluated at a short read. Periods of 1024 frames of 4 bytes; the
device returns 512 frames and every channel operation succeeds. The audio
header was copied into the packet before the read, declaring 4096 bytes; the
later assignment to `hdr.size` only feeds `ps_packet_setsize`, so the packet
that `ps_packet_close` commits has 1 + 20 + 2048 bytes: a payload of 2048
bytes under a header that still declares the full period. -/
theorem capture_period_short_read :
    capture_period linux ex_capture (ex_period 5000000 1024 512 0) =
      some (.again 0,
        [ Ev.alsa .snd_pcm_avail_update [], Ev.ps_packet_open,
          Ev.ps_packet_write (.msg_hdr 6) 1,
          Ev.ps_packet_write (.audio_hdr ⟨4977472, 4096, 1⟩) 20,
          Ev.ps_packet_dma 4096, Ev.alsa .snd_pcm_readi [1024],
          Ev.glc_log .GLC_WARNING "read %ld, expected %ld",
          Ev.ps_packet_setsize (1 + 20 + 512 * 4), Ev.ps_packet_close,
          Ev.alsa .snd_pcm_delay [] ]) := by
  decide

/-- C6 (as amended). On an engine whose device was opened by a successful
`audio_capture_start`, with clock reading `t = env.time`, `a` available frames
(at least one period) and `rate_usec = 1000000 / rate`, provided
`a * rate_usec` fits in 64 bits. In every period that returns, every audio
header written carries the timestamp `t - a * rate_usec` when
`a * rate_usec < t` and the unadjusted `t` otherwise, hence a timestamp
`<= t`, and the header is written whenever the channel accepts the packet and
its type byte. The period does return whenever the resume loop of each
recovery it enters ends. -/
theorem capture_period_timestamp (K : Consts) (ac0 ac : audio_capture_s) (oenv : OpenEnv)
    (tr0 : List Ev) (env : PeriodEnv) (a : Nat)
    (hclosed : ac0.pcm = none)
    (hstart : audio_capture_start K (some ac0) oenv = some (0, some ac, tr0))
    (ha : env.avail_update = (a : Int)) (hper : ac.period_size ≤ a) (ha64 : a < U64)
    (hfit : a * (1000000 / ac.rate) < U64) :
    (∀ ctl tr, capture_period K ac env = some (ctl, tr) →
      (∀ hdr sz, Ev.ps_packet_write (.audio_hdr hdr) sz ∈ tr →
        hdr.timestamp = (if a * (1000000 / ac.rate) < env.time
          then env.time - a * (1000000 / ac.rate) else env.time) ∧
        hdr.timestamp ≤ env.time) ∧
      (env.ps_packet_open = 0 → env.ps_packet_write_msg = 0 →
        ∃ hdr, Ev.ps_packet_write (.audio_hdr hdr) K.GLC_AUDIO_HEADER_SIZE ∈ tr)) ∧
    ((env.readi = -K.ESTRPIPE → recovers K env.read_xrun) →
      (env.delay.1 = -K.ESTRPIPE → recovers K env.delay_xrun) →
      ∃ ctl tr, capture_period K ac env = some (ctl, tr)) := by
  obtain ⟨-, hskip, hset⟩ := audio_capture_start_ok K ac0 ac oenv tr0 hstart
  obtain ⟨-, husec⟩ := hset hclosed
  have hdelay : toU64 (env.avail_update * ac.rate_usec) = a * (1000000 / ac.rate) := by
    rw [ha, husec, ← Nat.cast_mul]
    exact toU64_natCast _ hfit
  refine ⟨fun ctl tr hrun => ⟨?_, ?_⟩, fun hread hdl => capture_period_returns K ac env hread hdl⟩
  · intro hdr sz hm
    have hh := capture_period_hdr K ac env ctl tr hrun hdr sz hm
    have hts : hdr.timestamp = (if a * (1000000 / ac.rate) < env.time
        then env.time - a * (1000000 / ac.rate) else env.time) := by
      rw [hh]
      unfold capture_hdr
      simp only [hdelay]
    refine ⟨hts, ?_⟩
    rw [hts]
    split_ifs <;> omega
  · intro ho hw
    have hge : ¬ toU64 env.avail_update < ac.period_size := by
      rw [ha, toU64_natCast a ha64]
      omega
    exact ⟨_, capture_period_headed K ac env ctl tr hrun hge hskip ho hw⟩

/-- Witness of C6: 44100 Hz (`rate_usec = 22`), one period of 1024 frames
available at clock reading 5000000; the period returns and the header carries
4977472. -/
theorem capture_period_timestamp_witness :
    ((4977472 : Nat) = (if 1024 * (1000000 / 44100) < 5000000
        then 5000000 - 1024 * (1000000 / 44100) else 5000000) ∧
      (4977472 : Nat) ≤ 5000000) ∧
    ∃ ctl tr, capture_period linux ex_capture (ex_period 5000000 1024 1024 0) =
      some (ctl, tr) :=
  ⟨((capture_period_timestamp linux (audio_capture_init 1) ex_capture ex_open
      ((audio_capture_start linux (some (audio_capture_init 1)) ex_open).getD (0, none, [])).2.2
      (ex_period 5000000 1024 1024 0) 1024
      (by decide) (by decide) (by decide) (by decide) (by decide) (by decide)).1
      ((capture_period linux ex_capture (ex_period 5000000 1024 1024 0)).getD (.leave, [])).1
      ((capture_period linux ex_capture (ex_period 5000000 1024 1024 0)).getD (.leave, [])).2
      (by decide)).1 ⟨4977472, 4096, 1⟩ 20 (by decide),
    (capture_period_timestamp linux (audio_capture_init 1) ex_capture ex_open
      ((audio_capture_start linux (some (audio_capture_init 1)) ex_open).getD (0, none, [])).2.2
      (ex_period 5000000 1024 1024 0) 1024
      (by decide) (by decide) (by decide) (by decide) (by decide) (by decide)).2
      (fun h => absurd h (by decide)) (fun h => absurd h (by decide))⟩

/-- Counterexample to C6 as stated. At clock reading 100 with 1024 frames
available and `rate_usec = 22`, `t - a * rate_usec` is negative, yet the
header written carries the timestamp 100, not 0: the code leaves the clock
reading unadjusted instead of clamping. -/
theorem capture_timestamp_left_unclamped :
    (100 : Int) - 1024 * 22 < 0 ∧
    capture_period linux ex_capture (ex_period 100 1024 1024 0) =
      some (.again 0,
        [ Ev.alsa .snd_pcm_avail_update [], Ev.ps_packet_open,
          Ev.ps_packet_write (.msg_hdr 6) 1,
          Ev.ps_packet_write (.audio_hdr ⟨100, 4096, 1⟩) 20,
          Ev.ps_packet_dma 4096, Ev.alsa .snd_pcm_readi [1024],
          Ev.ps_packet_setsize 4117, Ev.ps_packet_close,
          Ev.alsa .snd_pcm_delay [] ]) := by
  decide

/-- C9, evaluated at a failed recovery. `snd_pcm_readi` returns `-EPIPE`,
`snd_pcm_prepare` fails with -5, so `audio_capture_xrun` returns 5 and `read`
is -5; the channel accepts `ps_packet_setsize` (called with a size that
wrapped around to 1) and `ps_packet_close`. The packet opened for the period
is committed: `ps_packet_close` is called, `ps_packet_cancel` is not, and the
loop goes on. -/
theorem capture_period_failed_recovery_committed :
    audio_capture_xrun linux (-32) ⟨[], -5, 0⟩ =
      some (5, [Ev.glc_log .GLC_DEBUG "xrun", Ev.alsa .snd_pcm_prepare []]) ∧
    capture_period linux ex_capture (ex_period 5000000 1024 (-32) (-5)) =
      some (.again 0,
        [ Ev.alsa .snd_pcm_avail_update [], Ev.ps_packet_open,
          Ev.ps_packet_write (.msg_hdr 6) 1,
          Ev.ps_packet_write (.audio_hdr ⟨4977472, 4096, 1⟩) 20,
          Ev.ps_packet_dma 4096, Ev.alsa .snd_pcm_readi [1024],
          Ev.glc_log .GLC_DEBUG "xrun", Ev.alsa .snd_pcm_prepare [],
          Ev.glc_log .GLC_WARNING "read %ld, expected %ld",
          Ev.ps_packet_setsize 1, Ev.ps_packet_close,
          Ev.alsa .snd_pcm_delay [] ]) := by
  decide

/-! ## Recovery: codes that are not handled -/

/-- C10 (as amended). For an error code that is neither `-EPIPE` nor
`-ESTRPIPE`, `audio_capture_xrun` and `audio_play_xrun` make no device call
(their only trace entry is the debug log) and return the negated code `-err`,
which is non-zero whenever `err` is. -/
theorem xrun_other_code (K : Consts) (err : Int) (env : XrunEnv) (h1 : err ≠ -K.EPIPE)
    (h2 : err ≠ -K.ESTRPIPE) :
    audio_capture_xrun K err env = some (-err, [Ev.glc_log .GLC_DEBUG "xrun"]) ∧
    audio_play_xrun K err env = some (-err, [Ev.glc_log .GLC_DEBUG "xrun"]) ∧
    (err ≠ 0 → -err ≠ 0) := by
  refine ⟨?_, ?_, fun h => by omega⟩
  · unfold audio_capture_xrun
    rw [if_neg h1, if_neg h2]
  · unfold audio_play_xrun
    simp only
    rw [if_neg h1, if_neg h2]

/-- Witness of C10: the code -5 comes back as 5 from both functions. -/
theorem xrun_other_code_witness :
    audio_capture_xrun linux (-5) ex_xrun = some (- -5, [Ev.glc_log .GLC_DEBUG "xrun"]) ∧
    audio_play_xrun linux (-5) ex_xrun = some (- -5, [Ev.glc_log .GLC_DEBUG "xrun"]) ∧
    ((-5 : Int) ≠ 0 → - (-5 : Int) ≠ 0) :=
  xrun_other_code linux (-5) ex_xrun (by decide) (by decide)

/-- Counterexample to C10 as stated. Passed -5, both recovery functions return
5: the value returned differs from the code passed in. -/
theorem xrun_negates_other_code :
    (-5 : Int) ≠ -linux.EPIPE ∧ (-5 : Int) ≠ -linux.ESTRPIPE ∧
    audio_capture_xrun linux (-5) ex_xrun = some (5, [Ev.glc_log .GLC_DEBUG "xrun"]) ∧
    audio_play_xrun linux (-5) ex_xrun = some (5, [Ev.glc_log .GLC_DEBUG "xrun"]) ∧
    (5 : Int) ≠ -5 := by
  decide

/-! ## Playback: the write loop -/

theorem toU64_lt (x : Int) : toU64 x < U64 := by
  unfold toU64 U64
  omega

theorem positive_sum_take_succ (x : Int) (rs : List Int) (k : Nat) :
    positive_sum ((x :: rs).take (k + 1)) =
      (if 0 < x then x.toNat else 0) + positive_sum (rs.take k) := by
  simp [positive_sum]

theorem expected_write_congr (K : Consts) (env : PlayEnv) (ap ap1 : audio_play_s) (n s : Nat)
    (hf : ap1.flags = ap.flags) (hc : ap1.channels = ap.channels) :
    expected_write K env ap1 n s = expected_write K env ap n s := by
  unfold expected_write
  rw [hf, hc]

theorem play_write_expected (K : Consts) (env : PlayEnv) (n : Nat) (ap : audio_play_s)
    (rem : Nat) (ap1 : audio_play_s) (w : Ev) (h : play_write K env n ap rem = some (ap1, w))
    (hrem : rem ≤ n) (hn : n < U64) :
    w = expected_write K env ap n (n - rem) ∧ ap1.flags = ap.flags ∧
      ap1.channels = ap.channels := by
  have hsub : subU64 n rem = n - rem := subU64_eq n rem hrem hn
  have hcount : n - (n - rem) = rem := by omega
  unfold play_write at h
  unfold expected_write
  rw [hsub] at h
  rw [hcount]
  split_ifs at h with h1 h2
  · simp only [Option.some.injEq, Prod.mk.injEq] at h
    obtain ⟨rfl, rfl⟩ := h
    simp [h1]
  · simp only [Option.some.injEq, Prod.mk.injEq] at h
    obtain ⟨rfl, rfl⟩ := h
    simp [h1, h2]
  · cases hb : ap.bufs with
    | none => simp [hb] at h
    | some old =>
      simp only [hb] at h
      split_ifs at h
      simp only [Option.some.injEq, Prod.mk.injEq] at h
      obtain ⟨rfl, rfl⟩ := h
      simp [h1]

theorem resume_loop_no_write_call (K : Consts) (rs : List Int) (e : Int) (tr : List Ev)
    (h : resume_loop K rs = some (e, tr)) : write_calls tr = [] := by
  induction rs generalizing e tr with
  | nil => simp [resume_loop] at h
  | cons r rs ih =>
    unfold resume_loop at h
    split_ifs at h with hr
    · cases hq : resume_loop K rs with
      | none => simp [hq] at h
      | some p =>
        obtain ⟨e1, tr1⟩ := p
        simp [hq] at h
        obtain ⟨-, rfl⟩ := h
        have := ih e1 tr1 hq
        simpa [write_calls, Ev.is_write_call] using this
    · simp at h
      obtain ⟨-, rfl⟩ := h
      simp [write_calls, Ev.is_write_call]

theorem audio_play_xrun_no_write_call (K : Consts) (err : Int) (env : XrunEnv) (r : Int)
    (tr : List Ev) (h : audio_play_xrun K err env = some (r, tr)) : write_calls tr = [] := by
  unfold audio_play_xrun at h
  simp only at h
  by_cases h1 : err = -K.EPIPE
  · simp only [h1, if_true] at h
    by_cases hp : env.prepare < 0 <;> simp [hp] at h <;>
      (obtain ⟨-, rfl⟩ := h; simp [write_calls, Ev.is_write_call])
  · simp only [h1, if_false] at h
    by_cases h2 : err = -K.ESTRPIPE
    · simp only [h2, if_true] at h
      cases hq : resume_loop K env.resume with
      | none => simp [hq] at h
      | some p =>
        obtain ⟨e1, tr1⟩ := p
        have hn := resume_loop_no_write_call K env.resume e1 tr1 hq
        simp only [hq] at h
        unfold write_calls at hn
        by_cases he : e1 < 0
        · simp only [he, if_true] at h
          by_cases hp : env.prepare < 0 <;> simp [hp] at h <;>
            (obtain ⟨-, rfl⟩ := h; simp [write_calls, Ev.is_write_call, hn])
        · simp [he] at h
          obtain ⟨-, rfl⟩ := h
          simp [write_calls, Ev.is_write_call, hn]
    · simp [h2] at h
      obtain ⟨-, rfl⟩ := h
      simp [write_calls, Ev.is_write_call]

theorem expected_write_is_write_call (K : Consts) (env : PlayEnv) (ap : audio_play_s)
    (n s : Nat) : (expected_write K env ap n s).is_write_call = true := by
  unfold expected_write
  split_ifs <;> rfl

theorem render_report_idle (K : Consts) (env : PlayEnv) (ap : audio_play_s) (n : Nat)
    (rets : List Int) : render_report K env ap n 0 rets 0 [] := by
  refine ⟨0, Nat.zero_le _, by simp [write_calls], fun h => absurd h (Nat.lt_irrefl 0),
    fun k hk => absurd hk (Nat.not_lt_zero k), fun k x hk => absurd hk (Nat.not_lt_zero k),
    fun k x hk => absurd hk (Nat.not_lt_zero k), by simp [positive_sum], fun _ => rfl⟩

theorem render_report_last (K : Consts) (env : PlayEnv) (ap : audio_play_s) (n rem : Nat)
    (x : Int) (rs : List Int) (r : Int) (tr : List Ev) (hrem : 0 < rem) (hx : x ≤ 0)
    (hw : write_calls tr = [expected_write K env ap n (n - rem)])
    (hr : (x = 0 ∨ x = -K.EBUSY ∨ x = -K.EAGAIN) → r = 0) :
    render_report K env ap n rem (x :: rs) r tr := by
  have hpos : ¬ 0 < x := by omega
  refine ⟨1, by simp, ?_, fun _ => Nat.one_pos, ?_, ?_, ?_, by simp [positive_sum, hpos], ?_⟩
  · rw [hw, List.range_succ_eq_map]
    simp [positive_sum]
  · intro k hk
    have : k = 0 := by omega
    subst this
    simpa [positive_sum] using hrem
  · intro k y hk hy ht
    have : k = 0 := by omega
    subst this
    simp only [List.getElem?_cons_zero, Option.some.injEq] at hy
    subst hy
    exact ⟨rfl, hr ht⟩
  · intro k y hk hy hy0
    have : k = 0 := by omega
    subst this
    simp only [List.getElem?_cons_zero, Option.some.injEq] at hy
    subst hy
    exact absurd hy0 hpos
  · intro h
    simp [positive_sum, hpos] at h
    omega

theorem render_report_more (K : Consts) (env : PlayEnv) (ap ap2 : audio_play_s) (n rem : Nat)
    (x : Int) (rs : List Int) (r : Int) (tr tr2 : List Ev) (hn : rem ≤ n) (hrem : 0 < rem)
    (hfit : (if 0 < x then x.toNat else 0) ≤ rem)
    (hterm : ¬ (x = 0 ∨ x = -K.EBUSY ∨ x = -K.EAGAIN))
    (hf : ap2.flags = ap.flags) (hc : ap2.channels = ap.channels)
    (hw : write_calls tr = expected_write K env ap n (n - rem) :: write_calls tr2)
    (ih : render_report K env ap2 n (rem - (if 0 < x then x.toNat else 0)) rs r tr2) :
    render_report K env ap n rem (x :: rs) r tr := by
  obtain ⟨m, hm, hwr, h0, h2, h3, h4, hle, h5⟩ := ih
  refine ⟨m + 1, by simpa using hm, ?_, fun _ => Nat.succ_pos m, ?_, ?_, ?_, ?_, ?_⟩
  · rw [hw, hwr, List.range_succ_eq_map]
    simp only [List.map_cons, List.map_map, List.take_zero, positive_sum, Nat.add_zero]
    congr 1
    apply List.map_congr_left
    intro k _
    simp only [Function.comp, positive_sum_take_succ]
    rw [expected_write_congr K env ap ap2 n _ hf hc]
    congr 1
    omega
  · intro k hk
    cases k with
    | zero => simpa [positive_sum] using hrem
    | succ k =>
      rw [positive_sum_take_succ]
      have := h2 k (by omega)
      omega
  · intro k y hk hy ht
    cases k with
    | zero =>
      simp only [List.getElem?_cons_zero, Option.some.injEq] at hy
      subst hy
      exact absurd ht hterm
    | succ k =>
      simp only [List.getElem?_cons_succ] at hy
      obtain ⟨e1, e2⟩ := h3 k y (by omega) hy ht
      exact ⟨by omega, e2⟩
  · intro k y hk hy hy0 hlt
    cases k with
    | zero =>
      simp only [List.getElem?_cons_zero, Option.some.injEq] at hy
      subst hy
      rw [positive_sum_take_succ] at hlt
      simp only [List.take_zero, positive_sum, Nat.add_zero] at hlt
      have := h0 (by omega)
      omega
    | succ k =>
      simp only [List.getElem?_cons_succ] at hy
      rw [positive_sum_take_succ] at hlt
      have := h4 k y (by omega) hy hy0 (by omega)
      omega
  · rw [positive_sum_take_succ]
    omega
  · intro h
    rw [positive_sum_take_succ] at h
    exact h5 (by omega)

theorem write_calls_attempt (d : Nat) (w : Ev) (hw : w.is_write_call = true) (mid rest : List Ev)
    (hmid : write_calls mid = []) :
    write_calls ([Ev.alsa .snd_pcm_wait [toInt32 d], w] ++ mid ++ rest) =
      w :: write_calls rest := by
  unfold write_calls at *
  have hwait : (Ev.alsa .snd_pcm_wait [toInt32 d]).is_write_call = false := rfl
  simp only [List.filter_append, List.filter_cons, hw, hmid, hwait, List.filter_nil]
  simp

theorem play_loop_report (K : Consts) (env : PlayEnv) (n d : Nat) (hn : n < U64)
    (hbusy : 0 ≤ K.EBUSY) (hagain : 0 ≤ K.EAGAIN) (steps : List WriteStep)
    (ap : audio_play_s) (rem : Nat) (hrem : rem ≤ n)
    (hfit : ∀ k x, (steps.map WriteStep.ret)[k]? = some x → 0 < x →
      positive_sum ((steps.map WriteStep.ret).take k) + x.toNat ≤ rem)
    (r : Int) (ap1 : audio_play_s) (tr : List Ev)
    (h : play_loop K env n d ap rem steps = some (r, ap1, tr)) :
    render_report K env ap n rem (steps.map WriteStep.ret) r tr := by
  induction steps generalizing ap rem r ap1 tr with
  | nil =>
    unfold play_loop at h
    split_ifs at h with h0
    · simp only [Option.some.injEq, Prod.mk.injEq] at h
      obtain ⟨rfl, -, rfl⟩ := h
      subst h0
      exact render_report_idle K env ap n _
  | cons st rest ih =>
    unfold play_loop at h
    split_ifs at h with h0
    · simp only [Option.some.injEq, Prod.mk.injEq] at h
      obtain ⟨rfl, -, rfl⟩ := h
      subst h0
      exact render_report_idle K env ap n _
    · have hpos : 0 < rem := Nat.pos_of_ne_zero h0
      cases hw : play_write K env n ap rem with
      | none => simp [hw] at h
      | some p =>
        obtain ⟨ap2, w⟩ := p
        obtain ⟨hwe, hfl, hch⟩ := play_write_expected K env n ap rem ap2 w hw hrem hn
        have hwc : w.is_write_call = true := by
          rw [hwe]; exact expected_write_is_write_call K env ap n _
        simp only [hw] at h
        rw [List.map_cons]
        have hfit0 : 0 < st.ret → st.ret.toNat ≤ rem := by
          intro hp
          have := hfit 0 st.ret (by simp) hp
          simpa [positive_sum] using this
        have hfit1 : ∀ (p0 : Nat), p0 = (if 0 < st.ret then st.ret.toNat else 0) →
            ∀ k x, (rest.map WriteStep.ret)[k]? = some x → 0 < x →
              positive_sum ((rest.map WriteStep.ret).take k) + x.toNat ≤ rem - p0 := by
          intro p0 hp0 k x hk hx
          have := hfit (k + 1) x (by simpa using hk) hx
          rw [List.map_cons, positive_sum_take_succ, ← hp0] at this
          omega
        split_ifs at h with h1 h2 h3
        · simp only [Option.some.injEq, Prod.mk.injEq] at h
          obtain ⟨rfl, -, rfl⟩ := h
          refine render_report_last K env ap n rem st.ret _ 0 _ hpos (by omega) ?_ (fun _ => rfl)
          have := write_calls_attempt d w hwc [] [] rfl
          simpa [hwe] using this
        · simp only [Option.some.injEq, Prod.mk.injEq] at h
          obtain ⟨rfl, -, rfl⟩ := h
          refine render_report_last K env ap n rem st.ret _ 0 _ hpos ?_ ?_ (fun _ => rfl)
          · rcases h2 with h2 | h2 <;> omega
          · have := write_calls_attempt d w hwc [] [] rfl
            simpa [hwe] using this
        · cases hx : audio_play_xrun K st.ret st.xrun with
          | none => simp [hx] at h
          | some q =>
            obtain ⟨r1, trx⟩ := q
            have hxn := audio_play_xrun_no_write_call K st.ret st.xrun r1 trx hx
            simp only [hx] at h
            split_ifs at h with h4
            · simp only [Option.some.injEq, Prod.mk.injEq] at h
              obtain ⟨rfl, -, rfl⟩ := h
              refine render_report_last K env ap n rem st.ret _ r1 _ hpos (by omega) ?_ ?_
              · have := write_calls_attempt d w hwc trx
                  [Ev.glc_log .GLC_ERROR "xrun recovery failed: %s"] hxn
                simpa [hwe, write_calls, Ev.is_write_call] using this
              · intro ht
                rcases ht with ht | ht | ht
                · exact absurd ht h1
                · exact absurd (Or.inl ht) h2
                · exact absurd (Or.inr ht) h2
            · cases hl : play_loop K env n d ap2 rem rest with
              | none => simp [hl] at h
              | some q2 =>
                obtain ⟨r2, ap3, tr2⟩ := q2
                simp only [hl, Option.map_some', Option.some.injEq, Prod.mk.injEq] at h
                obtain ⟨rfl, -, rfl⟩ := h
                have hzero : (if 0 < st.ret then st.ret.toNat else 0) = 0 := by
                  rw [if_neg (by omega)]
                have ih2 := ih ap2 rem hrem (by simpa [hzero] using hfit1 0 hzero.symm)
                  r2 ap3 tr2 hl
                refine render_report_more K env ap ap2 n rem st.ret _ r2 _ tr2 hrem hpos
                  (by rw [hzero]; omega) ?_ hfl hch ?_ (by rw [hzero]; simpa using ih2)
                · intro ht
                  rcases ht with ht | ht | ht
                  · exact absurd ht h1
                  · exact absurd (Or.inl ht) h2
                  · exact absurd (Or.inr ht) h2
                · rw [← hwe]
                  exact write_calls_attempt d w hwc trx tr2 hxn
        · have hp : 0 < st.ret := by omega
          have hle := hfit0 hp
          have hto : toU64 st.ret = st.ret.toNat := by
            unfold toU64
            unfold U64 at hn
            omega
          have hsub : subU64 rem (toU64 st.ret) = rem - st.ret.toNat := by
            rw [hto]
            exact subU64_eq rem _ hle (by omega)
          rw [hsub] at h
          cases hl : play_loop K env n d ap2 (rem - st.ret.toNat) rest with
          | none => simp [hl] at h
          | some q2 =>
            obtain ⟨r2, ap3, tr2⟩ := q2
            simp only [hl, Option.map_some', Option.some.injEq, Prod.mk.injEq] at h
            obtain ⟨rfl, -, rfl⟩ := h
            have hval : (if 0 < st.ret then st.ret.toNat else 0) = st.ret.toNat := by
              rw [if_pos hp]
            have ih2 := ih ap2 (rem - st.ret.toNat) (by omega)
              (hfit1 st.ret.toNat hval.symm) r2 ap3 tr2 hl
            refine render_report_more K env ap ap2 n rem st.ret _ r2 _ tr2 hrem hpos
              (by rw [hval]; exact hle) ?_ hfl hch ?_ (by rw [hval]; exact ih2)
            · intro ht
              rcases ht with ht | ht | ht
              · exact absurd ht h1
              · exact absurd (Or.inl ht) h2
              · exact absurd (Or.inr ht) h2
            · rw [← hwe]
              have := write_calls_attempt d w hwc [] tr2 rfl
              simpa using this

theorem play_write_ready (K : Consts) (env : PlayEnv) (n : Nat) (ap : audio_play_s) (rem : Nat)
    (h : scratch_ready K ap) :
    ∃ ap2 w, play_write K env n ap rem = some (ap2, w) ∧ scratch_ready K ap2 := by
  unfold play_write
  by_cases h1 : ap.flags &&& K.GLC_AUDIO_INTERLEAVED ≠ 0
  · exact ⟨_, _, by rw [if_pos h1], h⟩
  · rw [if_neg h1]
    by_cases h2 : ap.channels = 0
    · exact ⟨_, _, by rw [if_pos h2], h⟩
    · rw [if_neg h2]
      rcases h with h | h | ⟨old, hb, hl⟩
      · exact absurd h h1
      · exact absurd h h2
      · rw [hb]
        refine ⟨_, _, by simp only; rw [if_neg (by omega)], Or.inr (Or.inr ⟨_, rfl, ?_⟩)⟩
        simp [Function.comp_def]

theorem play_loop_returns (K : Consts) (env : PlayEnv) (n d : Nat) (hn : n < U64)
    (steps : List WriteStep) (ap : audio_play_s) (rem : Nat) (hrem : rem ≤ n)
    (hready : scratch_ready K ap)
    (hfit : ∀ k x, (steps.map WriteStep.ret)[k]? = some x → 0 < x →
      positive_sum ((steps.map WriteStep.ret).take k) + x.toNat ≤ rem)
    (hclean : ∀ st ∈ steps, 0 ≤ st.ret ∨ st.ret = -K.EBUSY ∨ st.ret = -K.EAGAIN)
    (hend : positive_sum (steps.map WriteStep.ret) = rem ∨
      ∃ st ∈ steps, st.ret = 0 ∨ st.ret = -K.EBUSY ∨ st.ret = -K.EAGAIN) :
    ∃ ap1 tr, play_loop K env n d ap rem steps = some (0, ap1, tr) := by
  induction steps generalizing ap rem with
  | nil =>
    unfold play_loop
    rcases hend with hend | ⟨st, hst, -⟩
    · simp only [List.map_nil, positive_sum] at hend
      exact ⟨ap, [], by rw [if_pos hend.symm]⟩
    · simp at hst
  | cons st rest ih =>
    unfold play_loop
    by_cases h0 : rem = 0
    · exact ⟨ap, [], by rw [if_pos h0]⟩
    · rw [if_neg h0]
      obtain ⟨ap2, w, hw, hready2⟩ := play_write_ready K env n ap rem hready
      simp only [hw]
      by_cases h1 : st.ret = 0
      · exact ⟨_, _, by rw [if_pos h1]⟩
      · rw [if_neg h1]
        by_cases h2 : st.ret = -K.EBUSY ∨ st.ret = -K.EAGAIN
        · exact ⟨_, _, by rw [if_pos h2]⟩
        · rw [if_neg h2]
          have hp : 0 < st.ret := by
            rcases hclean st (by simp) with h | h | h
            · omega
            · exact absurd (Or.inl h) h2
            · exact absurd (Or.inr h) h2
          rw [if_neg (by omega)]
          have hle : st.ret.toNat ≤ rem := by
            have := hfit 0 st.ret (by simp) hp
            simpa [positive_sum] using this
          have hto : toU64 st.ret = st.ret.toNat := by
            unfold toU64
            unfold U64 at hn
            omega
          have hsub : subU64 rem (toU64 st.ret) = rem - st.ret.toNat := by
            rw [hto]
            exact subU64_eq rem _ hle (by omega)
          rw [hsub]
          obtain ⟨ap3, tr3, h3⟩ := ih ap2 (rem - st.ret.toNat) (by omega) hready2
            (by
              intro k x hk hx
              have := hfit (k + 1) x (by simpa using hk) hx
              rw [List.map_cons, positive_sum_take_succ, if_pos hp] at this
              omega)
            (fun s hs => hclean s (by simp [hs]))
            (by
              rcases hend with hend | ⟨s, hs, ht⟩
              · left
                simp only [List.map_cons, positive_sum, if_pos hp] at hend
                omega
              · right
                rcases List.mem_cons.mp hs with rfl | hs
                · rcases ht with ht | ht | ht
                  · exact absurd ht h1
                  · exact absurd (Or.inl ht) h2
                  · exact absurd (Or.inr ht) h2
                · exact ⟨s, hs, ht⟩)
          exact ⟨ap3, _, by rw [h3]; rfl⟩

theorem audio_play_play_renders (K : Consts) (ap : audio_play_s) (audio_hdr : AudioHdr)
    (env : PlayEnv) (n pcm : Nat) (hpcm : ap.pcm = some pcm)
    (hid : audio_hdr.audio = ap.audio_i) (hrate : ap.rate ≠ 0)
    (hn : toU64 (env.bytes_to_frames audio_hdr.size) = n)
    (hrender : (env.time + ap.silence_threshold + play_duration n ap.rate) % U64
        < audio_hdr.timestamp ∨ ¬ env.time > audio_hdr.timestamp) :
    ∃ pre : List Ev, write_calls pre = [] ∧
      audio_play_play K ap audio_hdr env =
        (play_loop K env n (play_duration n ap.rate) ap n env.writes).map
          (fun q => (q.1, q.2.1, pre ++ q.2.2)) := by
  unfold audio_play_play
  simp only [ne_eq, hid, not_true_eq_false, if_false, hpcm, hrate, hn]
  by_cases hs : (env.time + ap.silence_threshold + play_duration n ap.rate) % U64
      < audio_hdr.timestamp
  · rw [if_pos hs]
    exact ⟨[Ev.usleep (toUseconds
      (subU64 (subU64 audio_hdr.timestamp env.time) (play_duration n ap.rate)))], rfl, rfl⟩
  · rw [if_neg hs]
    rcases hrender with h | h
    · exact absurd h hs
    · rw [if_neg h]
      refine ⟨[], rfl, ?_⟩
      cases play_loop K env n (play_duration n ap.rate) ap n env.writes <;> rfl

theorem play_loop_planar_offsets :
    play_loop linux (ex_env 1000000 [50, 46]) 96 2000 { ex_play with flags := 4 } 96
        (ex_env 1000000 [50, 46]).writes =
      some (0, { ex_play with flags := 4, bufs := some [some 100, some 292] },
        [ Ev.alsa .snd_pcm_wait [2000], Ev.alsa .snd_pcm_writen [96, 0, 192],
          Ev.alsa .snd_pcm_wait [2000], Ev.alsa .snd_pcm_writen [46, 100, 292] ]) := by
  decide

/-- C11. A data message of `n` frames of the bound stream that
`audio_play_play` renders (open device, non-zero rate, not dropped), against
write results `rets` in which every positive result is at most the frame count
then outstanding, the `errno` values `EBUSY` and `EAGAIN` being non-negative.
Whenever the call returns, it made `m` write attempts, the `k`-th with the
arguments of `expected_write` at `s`, the sum of the earlier positive results:
`n - s` frames at byte offset `frames_to_bytes(s)`, or for a planar stream with
channel `c` at `samples_to_bytes(n) * c + samples_to_bytes(s)`. Every attempt
found frames outstanding; a zero, `-EBUSY` or `-EAGAIN` result is the last
attempt and the call returns 0; a positive result that leaves frames
outstanding is followed by the next attempt; the positive results never exceed
`n`, and when they sum to `n` the call returns 0. The call does return 0 when
the device can be written to, no result is another error code, and the results
reach `n` or contain a zero, `-EBUSY` or `-EAGAIN`. -/
theorem audio_play_play_write_attempts (K : Consts) (ap : audio_play_s) (audio_hdr : AudioHdr)
    (env : PlayEnv) (n pcm : Nat) (hpcm : ap.pcm = some pcm)
    (hid : audio_hdr.audio = ap.audio_i) (hrate : ap.rate ≠ 0)
    (hn : toU64 (env.bytes_to_frames audio_hdr.size) = n)
    (hrender : (env.time + ap.silence_threshold + play_duration n ap.rate) % U64
        < audio_hdr.timestamp ∨ ¬ env.time > audio_hdr.timestamp)
    (hbusy : 0 ≤ K.EBUSY) (hagain : 0 ≤ K.EAGAIN)
    (hfit : ∀ k x, (env.writes.map WriteStep.ret)[k]? = some x → 0 < x →
      positive_sum ((env.writes.map WriteStep.ret).take k) + x.toNat ≤ n) :
    (∀ r ap1 tr, audio_play_play K ap audio_hdr env = some (r, ap1, tr) →
      ∃ m, m ≤ env.writes.length ∧
        write_calls tr = (List.range m).map
          (fun k => expected_write K env ap n
            (positive_sum ((env.writes.map WriteStep.ret).take k))) ∧
        (0 < n → 0 < m) ∧
        (∀ k, k < m → positive_sum ((env.writes.map WriteStep.ret).take k) < n) ∧
        (∀ k x, k < m → (env.writes.map WriteStep.ret)[k]? = some x →
          (x = 0 ∨ x = -K.EBUSY ∨ x = -K.EAGAIN) → k + 1 = m ∧ r = 0) ∧
        (∀ k x, k < m → (env.writes.map WriteStep.ret)[k]? = some x → 0 < x →
          positive_sum ((env.writes.map WriteStep.ret).take (k + 1)) < n → k + 1 < m) ∧
        positive_sum ((env.writes.map WriteStep.ret).take m) ≤ n ∧
        (positive_sum ((env.writes.map WriteStep.ret).take m) = n → r = 0)) ∧
    (scratch_ready K ap →
      (∀ st ∈ env.writes, 0 ≤ st.ret ∨ st.ret = -K.EBUSY ∨ st.ret = -K.EAGAIN) →
      (positive_sum (env.writes.map WriteStep.ret) = n ∨
        ∃ st ∈ env.writes, st.ret = 0 ∨ st.ret = -K.EBUSY ∨ st.ret = -K.EAGAIN) →
      ∃ ap1 tr, audio_play_play K ap audio_hdr env = some (0, ap1, tr)) := by
  have hlt : n < U64 := by rw [← hn]; exact toU64_lt _
  obtain ⟨pre, hpre, heq⟩ :=
    audio_play_play_renders K ap audio_hdr env n pcm hpcm hid hrate hn hrender
  constructor
  · intro r ap1 tr hrun
    rw [heq] at hrun
    cases hl : play_loop K env n (play_duration n ap.rate) ap n env.writes with
    | none => simp [hl] at hrun
    | some q =>
      obtain ⟨r2, ap2, tr2⟩ := q
      simp only [hl, Option.map_some', Option.some.injEq, Prod.mk.injEq] at hrun
      obtain ⟨rfl, -, rfl⟩ := hrun
      obtain ⟨m, h1, h2, h3, h4, h5, h6, h7, h8⟩ :=
        play_loop_report K env n _ hlt hbusy hagain env.writes ap n (Nat.le_refl n) hfit
          r2 ap2 tr2 hl
      refine ⟨m, by simpa using h1, ?_, h3, h4, h5, h6, h7, h8⟩
      have hw : write_calls (pre ++ tr2) = write_calls tr2 := by
        unfold write_calls at *
        rw [List.filter_append, hpre, List.nil_append]
      rw [hw, h2]
      apply List.map_congr_left
      intro k _
      rw [Nat.sub_self, Nat.zero_add]
  · intro hready hclean hend
    obtain ⟨ap1, tr, h⟩ := play_loop_returns K env n (play_duration n ap.rate) hlt env.writes
      ap n (Nat.le_refl n) hready hfit hclean hend
    exact ⟨ap1, pre ++ tr, by rw [heq, h]; rfl⟩

/-- Witness of C11: 96 frames on the configured stereo device, the device
taking 50 frames and then 46. -/
theorem audio_play_play_write_attempts_witness :
    audio_play_play linux ex_play ⟨1000000, 384, 1⟩ (ex_env 1000000 [50, 46]) =
      some (0, ex_play,
        [ Ev.alsa .snd_pcm_wait [2000], Ev.alsa .snd_pcm_writei [0, 96],
          Ev.alsa .snd_pcm_wait [2000], Ev.alsa .snd_pcm_writei [200, 46] ]) ∧
    ∃ ap1 tr, audio_play_play linux ex_play ⟨1000000, 384, 1⟩ (ex_env 1000000 [50, 46]) =
      some (0, ap1, tr) :=
  ⟨by decide, (audio_play_play_write_attempts linux ex_play ⟨1000000, 384, 1⟩ (ex_env 1000000 [50, 46])
    96 7 (by decide) (by decide) (by decide) (by decide) (by decide) (by decide) (by decide)
    (by
      intro k x hk hx
      match k, hk with
      | 0, hk =>
        simp only [ex_env, List.map_cons, List.getElem?_cons_zero, Option.some.injEq] at hk
        subst hk
        decide
      | 1, hk =>
        simp only [ex_env, List.map_cons, List.getElem?_cons_succ, List.getElem?_cons_zero,
          Option.some.injEq] at hk
        subst hk
        decide
      | k + 2, hk => simp [ex_env] at hk)).2
    (Or.inl (by decide)) (by decide) (Or.inl (by decide))⟩

/-! ## Capture: start after a failed open -/

theorem goto_err_announces (l : List (Ev × Int))
    (h : (l.map Prod.fst).filter Ev.announces = []) :
    (goto_err l).1.filter Ev.announces = [] := by
  induction l with
  | nil => rfl
  | cons c rest ih =>
    obtain ⟨e, r⟩ := c
    simp only [List.map_cons, List.filter_cons] at h
    by_cases he : e.announces = true
    · simp [he] at h
    · simp only [he, Bool.false_eq_true, if_false] at h
      unfold goto_err
      split_ifs
      · simp [List.filter_cons, he]
      · simp only [List.filter_cons, he, Bool.false_eq_true, if_false]
        exact ih h

theorem audio_capture_init_hw_announces (K : Consts) (ac : audio_capture_s) (env : HwEnv) :
    (audio_capture_init_hw K ac env).2.filter Ev.announces = [] := by
  have h := goto_err_announces (audio_capture_init_hw_calls K ac env) (by rfl)
  unfold audio_capture_init_hw
  split
  · next tr ret hg => rw [hg] at h; exact h
  · next tr hg => rw [hg] at h; exact h

theorem audio_capture_init_sw_announces (env : OpenEnv) :
    (audio_capture_init_sw env).2.filter Ev.announces = [] := by
  unfold audio_capture_init_sw
  split_ifs <;> rfl

theorem audio_capture_open_settings_fails (K : Consts) (ac : audio_capture_s) (env : OpenEnv)
    (hsup : K.ENOTSUP ≠ 0) (hrate : env.get_rate.2.1 ≠ 0)
    (hneg : env.get_period_size.1 ≠ 0 ∨ env.get_format.1 < 0 ∨ env.get_rate.1 < 0 ∨
      env.get_channels.1 < 0 ∨
      (K.GLC_AUDIO_INTERLEAVED ||| audio_capture_fmt_flags K env.get_format.2) &&&
        K.GLC_AUDIO_FORMAT_UNKNOWN ≠ 0) :
    ∃ ret ac1 tr, audio_capture_open_settings K ac env = some (ret, ac1, tr) ∧ ret ≠ 0 ∧
      ac1.pcm = ac.pcm ∧ ac1.skip_data = ac.skip_data ∧
      ac1.async_handler = ac.async_handler ∧ tr.filter Ev.announces = [] := by
  unfold audio_capture_open_settings
  dsimp only
  by_cases c1 : env.get_period_size.1 ≠ 0
  · rw [if_pos c1]
    refine ⟨_, _, _, rfl, ?_, ?_, ?_, ?_, ?_⟩
    · omega
    · split_ifs <;> rfl
    · split_ifs <;> rfl
    · split_ifs <;> rfl
    · rfl
  · rw [if_neg c1]
    by_cases c2 : env.get_format.1 < 0
    · rw [if_pos c2]
      refine ⟨_, _, _, rfl, ?_, ?_, ?_, ?_, ?_⟩
      · omega
      · (try simp only [audio_capture_open_err]); split_ifs <;> rfl
      · (try simp only [audio_capture_open_err]); split_ifs <;> rfl
      · (try simp only [audio_capture_open_err]); split_ifs <;> rfl
      · rfl
    · rw [if_neg c2]
      by_cases c3 : env.get_rate.1 < 0
      · rw [if_pos c3]
        refine ⟨_, _, _, rfl, ?_, ?_, ?_, ?_, ?_⟩
        · omega
        · (try simp only [audio_capture_open_err]); split_ifs <;> rfl
        · (try simp only [audio_capture_open_err]); split_ifs <;> rfl
        · (try simp only [audio_capture_open_err]); split_ifs <;> rfl
        · rfl
      · rw [if_neg c3]
        by_cases c4 : env.get_channels.1 < 0
        · rw [if_pos c4]
          refine ⟨_, _, _, rfl, ?_, ?_, ?_, ?_, ?_⟩
          · omega
          · (try simp only [audio_capture_open_err]); split_ifs <;> rfl
          · (try simp only [audio_capture_open_err]); split_ifs <;> rfl
          · (try simp only [audio_capture_open_err]); split_ifs <;> rfl
          · rfl
        · rw [if_neg c4, if_neg hrate]
          have c5 : (K.GLC_AUDIO_INTERLEAVED ||| audio_capture_fmt_flags K env.get_format.2) &&&
              K.GLC_AUDIO_FORMAT_UNKNOWN ≠ 0 := by
            rcases hneg with h | h | h | h | h
            · exact absurd h c1
            · exact absurd h c2
            · exact absurd h c3
            · exact absurd h c4
            · exact h
          rw [if_pos c5]
          refine ⟨_, _, _, rfl, hsup, ?_, ?_, ?_, ?_⟩
          · split_ifs <;> rfl
          · split_ifs <;> rfl
          · split_ifs <;> rfl
          · rfl

theorem audio_capture_open_fails (K : Consts) (ac : audio_capture_s) (env : OpenEnv)
    (hopen : 0 ≤ env.hw.snd_pcm_open.1) (hneg : negotiation_fails K ac env)
    (hsup : K.ENOTSUP ≠ 0) (hrate : env.get_rate.2.1 ≠ 0) :
    ∃ ret ac1 tr, audio_capture_open K ac env = some (ret, ac1, tr) ∧ ret ≠ 0 ∧
      ac1.pcm = some env.hw.snd_pcm_open.2 ∧ ac1.skip_data = ac.skip_data ∧
      ac1.async_handler = ac.async_handler ∧ tr.filter Ev.announces = [] := by
  have hhw : ∀ x, audio_capture_init_hw K { ac with pcm := x } env.hw =
      audio_capture_init_hw K ac env.hw := fun _ => rfl
  have ahw := audio_capture_init_hw_announces K ac env.hw
  have asw := audio_capture_init_sw_announces env
  unfold audio_capture_open
  dsimp only
  rw [if_neg (by omega), hhw]
  by_cases c1 : env.hw.hw_params_malloc < 0
  · rw [if_pos c1]
    refine ⟨_, _, _, rfl, ?_, rfl, rfl, rfl, rfl⟩
    show -env.hw.hw_params_malloc ≠ 0
    omega
  · rw [if_neg c1]
    by_cases c2 : -(audio_capture_init_hw K ac env.hw).1 ≠ 0
    · rw [if_pos c2]
      refine ⟨_, _, _, rfl, ?_, rfl, rfl, rfl, ?_⟩
      · show - -(audio_capture_init_hw K ac env.hw).1 ≠ 0
        omega
      · simp [audio_capture_open_err, List.filter_append, List.filter_cons, Ev.announces, ahw]
    · rw [if_neg c2]
      by_cases c3 : env.sw_params_malloc < 0
      · rw [if_pos c3]
        refine ⟨_, _, _, rfl, ?_, rfl, rfl, rfl, ?_⟩
        · show -env.sw_params_malloc ≠ 0
          omega
        · simp [audio_capture_open_err, List.filter_append, List.filter_cons, Ev.announces,
            ahw]
      · rw [if_neg c3]
        by_cases c4 : -(audio_capture_init_sw env).1 ≠ 0
        · rw [if_pos c4]
          refine ⟨_, _, _, rfl, ?_, rfl, rfl, rfl, ?_⟩
          · show - -(audio_capture_init_sw env).1 ≠ 0
            omega
          · simp [audio_capture_open_err, List.filter_append, List.filter_cons, Ev.announces,
              ahw, asw]
        · rw [if_neg c4]
          have hrest : env.get_period_size.1 ≠ 0 ∨ env.get_format.1 < 0 ∨
              env.get_rate.1 < 0 ∨ env.get_channels.1 < 0 ∨
              (K.GLC_AUDIO_INTERLEAVED ||| audio_capture_fmt_flags K env.get_format.2) &&&
                K.GLC_AUDIO_FORMAT_UNKNOWN ≠ 0 := by
            rcases hneg with h | h | h | h | h
            · exact absurd h c1
            · exact absurd (by omega) c2
            · exact absurd h c3
            · exact absurd (by omega) c4
            · exact h
          obtain ⟨ret, ac1, tr, hs, hr, hp, hk, hh, ha⟩ :=
            audio_capture_open_settings_fails K { ac with pcm := some env.hw.snd_pcm_open.2 }
              env hsup hrate hrest
          rw [hs]
          refine ⟨ret, ac1, _, rfl, hr, hp, hk, hh, ?_⟩
          simp [List.filter_append, List.filter_cons, Ev.announces, ahw, asw, ha]

/-- C12. A stopped engine whose device has never been opened (`pcm` null,
`skip_data = 1`), and a device on which `snd_pcm_open` succeeds but some later
negotiation step fails or the negotiated format is unsupported (`ENOTSUP`
being non-zero, the rate read back non-zero). The first
`audio_capture_start` returns a non-zero value, leaves the handle set by
`snd_pcm_open` in `pcm` and `skip_data = 1`, registers no handler, and its
trace contains no format message, no `snd_async_add_pcm_handler` and no
`snd_pcm_start`. A second `audio_capture_start`, whatever the device would
answer, returns 0 with `skip_data = 0` and a trace of one log entry: it does
not call `audio_capture_open`, so nothing is negotiated, announced, registered
or started. -/
theorem audio_capture_start_after_failed_open (K : Consts) (ac0 : audio_capture_s)
    (env0 : OpenEnv) (hclosed : ac0.pcm = none) (hstopped : ac0.skip_data = 1)
    (hopen : 0 ≤ env0.hw.snd_pcm_open.1) (hneg : negotiation_fails K ac0 env0)
    (hsup : K.ENOTSUP ≠ 0) (hrate : env0.get_rate.2.1 ≠ 0) :
    ∃ ret ac1 tr1, audio_capture_start K (some ac0) env0 = some (ret, some ac1, tr1) ∧
      ret ≠ 0 ∧ ac1.pcm = some env0.hw.snd_pcm_open.2 ∧ ac1.skip_data = 1 ∧
      ac1.async_handler = ac0.async_handler ∧
      (∀ msg sz, Ev.ps_packet_write (.fmt_msg msg) sz ∉ tr1) ∧
      (∀ args, Ev.alsa .snd_async_add_pcm_handler args ∉ tr1) ∧
      (∀ args, Ev.alsa .snd_pcm_start args ∉ tr1) ∧
      ∀ env1, audio_capture_start K (some ac1) env1 =
        some (0, some { ac1 with skip_data := 0 },
          [Ev.glc_log .GLC_WARNING "device %s already started"]) := by
  obtain ⟨ret, ac1, tr, ho, hr, hp, hk, hh, ha⟩ :=
    audio_capture_open_fails K ac0 env0 hopen hneg hsup hrate
  have hskip : ac1.skip_data = 1 := by rw [hk, hstopped]
  have hall := List.filter_eq_nil_iff.mp ha
  refine ⟨ret, ac1, Ev.glc_log .GLC_WARNING "device %s already started" :: tr, ?_, hr, hp,
    hskip, hh, ?_, ?_, ?_, ?_⟩
  · unfold audio_capture_start
    simp only [hclosed, ho, hstopped]
    rw [if_pos hr]
    rfl
  · intro msg sz hm
    rcases List.mem_cons.mp hm with h | h
    · cases h
    · exact hall _ h rfl
  · intro args hm
    rcases List.mem_cons.mp hm with h | h
    · cases h
    · exact hall _ h rfl
  · intro args hm
    rcases List.mem_cons.mp hm with h | h
    · cases h
    · exact hall _ h rfl
  · intro env1
    unfold audio_capture_start
    simp [hp, hskip]

/-- Witness of C12: the device of `ex_open_bad` opens and then rejects the
rate; the first start returns 22 with the handle set, the second returns 0. -/
theorem audio_capture_start_after_failed_open_witness :
    (audio_capture_start linux (some (audio_capture_init 1)) ex_open_bad).map
        (fun q => (q.1, q.2.1)) =
      some (22, some { audio_capture_init 1 with pcm := some 7 }) ∧
    ∃ ret ac1 tr1,
      audio_capture_start linux (some (audio_capture_init 1)) ex_open_bad =
        some (ret, some ac1, tr1) ∧
      ret ≠ 0 ∧ ac1.pcm = some ex_open_bad.hw.snd_pcm_open.2 ∧ ac1.skip_data = 1 ∧
      ac1.async_handler = (audio_capture_init 1).async_handler ∧
      (∀ msg sz, Ev.ps_packet_write (.fmt_msg msg) sz ∉ tr1) ∧
      (∀ args, Ev.alsa .snd_async_add_pcm_handler args ∉ tr1) ∧
      (∀ args, Ev.alsa .snd_pcm_start args ∉ tr1) ∧
      ∀ env1, audio_capture_start linux (some ac1) env1 =
        some (0, some { ac1 with skip_data := 0 },
          [Ev.glc_log .GLC_WARNING "device %s already started"]) :=
  ⟨by decide,
    audio_capture_start_after_failed_open linux (audio_capture_init 1) ex_open_bad
      (by decide) (by decide) (by decide) (Or.inr (Or.inl (by decide))) (by decide)
      (by decide)⟩

end Glc
